import Mathlib

/-! The command-line driver `src/binaries/watershed.cpp` of aff_watershed.

A shallow embedding of the driver and of the library values it handles
(`float`, `int`, `std::size_t`, `std::stringstream`, directory listings,
image files), followed by theorems about its behaviour.

Layout: definitions first, in source order; theorems afterwards.
-/

namespace AffWatershed

/-! ## `float`: IEEE 754 binary32 -/

/-- A C++ `float`: the three fields of an IEEE 754 binary32 value. -/
structure F32 where
  sign : Bool
  expo : Fin 256
  frac : Fin 8388608
deriving DecidableEq

namespace F32

/-- NaN: exponent all ones, fraction non-zero. -/
def isNaN (a : F32) : Bool := a.expo.val == 255 && a.frac.val != 0

/-- Infinity: exponent all ones, fraction zero. -/
def isInf (a : F32) : Bool := a.expo.val == 255 && a.frac.val == 0

/-- Finite: exponent not all ones. -/
def isFinite (a : F32) : Bool := a.expo.val != 255

/-- Magnitude in units of `2^-149` (the smallest subnormal).  A subnormal is
`frac * 2^-149`, a normal is `(2^23 + frac) * 2^(expo-150)`.  The same formula
sends an infinity to `2^277`, above every finite magnitude. -/
def mag (a : F32) : Nat :=
  if a.expo.val = 0 then a.frac.val else (8388608 + a.frac.val) * 2 ^ (a.expo.val - 1)

/-- Signed magnitude; `-0` and `+0` both give `0`. -/
def key (a : F32) : Int := if a.sign then - (a.mag : Int) else (a.mag : Int)

/-- C++ `a < b` on floats: false as soon as one operand is NaN. -/
def lt (a b : F32) : Bool := !a.isNaN && !b.isNaN && decide (a.key < b.key)

/-- C++ `a <= b` on floats: false as soon as one operand is NaN. -/
def le (a b : F32) : Bool := !a.isNaN && !b.isNaN && decide (a.key ≤ b.key)

/-- C++ `a > b`. -/
def gt (a b : F32) : Bool := lt b a

/-- C++ `a >= b`. -/
def ge (a b : F32) : Bool := le b a

/-- The value `+0.0f`. -/
def zero : F32 := ⟨false, 0, 0⟩

/-- A quiet NaN. -/
def qnan : F32 := ⟨false, 255, 4194304⟩

/-- Round-half-to-even of the quotient `a / b` (`b > 0`). -/
def roundHalfEven (a b : Nat) : Nat :=
  let q := a / b
  let r := a % b
  if 2 * r < b then q
  else if b < 2 * r then q + 1
  else if q % 2 = 0 then q else q + 1

/-- The largest `e` in `1..fuel` with `2^(22+e) ≤ s`, or `0` when there is none:
the biased exponent of the binade that holds the scaled magnitude `s`. -/
def binade (s : Nat) : Nat → Nat
  | 0 => 0
  | e + 1 => if 2 ^ (22 + (e + 1)) ≤ s then e + 1 else binade s e

/-- The float nearest to `± p / q` (ties to even, overflow to infinity). -/
def ofRatio (neg : Bool) (p q : Nat) : F32 :=
  let e := binade (p * 2 ^ 149 / q) 254
  let m := roundHalfEven (p * 2 ^ 149) (q * 2 ^ (e - 1))
  if m < 8388608 then ⟨neg, 0, Fin.ofNat m⟩
  else if m < 16777216 then ⟨neg, Fin.ofNat (max e 1), Fin.ofNat (m - 8388608)⟩
  else if e < 254 then ⟨neg, Fin.ofNat (max e 1 + 1), 0⟩
  else ⟨neg, 255, 0⟩

/-- Conversion of an unsigned integer to `float` (round to nearest). -/
def ofNat (n : Nat) : F32 := ofRatio false n 1

/-- Conversion `float → int`: truncation toward zero; `none` where the
truncated value does not fit an `int` (NaN and infinities included), which is
undefined behaviour in C++. -/
def toInt32? (a : F32) : Option Int :=
  if a.isNaN || a.isInf then none
  else
    let n : Int := (a.mag / 2 ^ 149 : Nat)
    let t : Int := if a.sign then - n else n
    if -2147483648 ≤ t ∧ t < 2147483648 then some t else none

end F32

/-! ## Text of numbers, as `operator<<` produces it -/

/-- Decimal digits of `n`, least significant first; `fuel` bounds the length. -/
def digitsRev : Nat → Nat → List Nat
  | 0, _ => []
  | fuel + 1, n => if n < 10 then [n] else (n % 10) :: digitsRev fuel (n / 10)

/-- Decimal text of an unsigned number. -/
def natText (n : Nat) : List Char := ((digitsRev (n + 1) n).reverse).map Nat.digitChar

/-- Decimal text of an `int`, as `operator<<(int)` gives it with default flags. -/
def intText (i : Int) : List Char :=
  match i with
  | Int.ofNat n => natText n
  | Int.negSucc n => '-' :: natText (n + 1)

/-- Drop the trailing `'0'` characters of a digit string. -/
def stripZeros (cs : List Char) : List Char :=
  (cs.reverse.dropWhile (fun c => c == '0')).reverse

/-- Digits of `n` padded on the left with `'0'` to at least `w` characters. -/
def zeroPad (w : Nat) (n : Nat) : List Char :=
  let d := natText n
  List.replicate (w - d.length) '0' ++ d

/-- The largest `k ≤ fuel` with `10^k * 2^149 ≤ N * 10^45`, or `0`: the decimal
exponent of the scaled magnitude `N`, offset by 45. -/
def decExp (N : Nat) : Nat → Nat
  | 0 => 0
  | k + 1 => if 10 ^ (k + 1) * 2 ^ 149 ≤ N * 10 ^ 45 then k + 1 else decExp N k

/-- The six significant decimal digits of the scaled magnitude `N > 0` and its
decimal exponent after rounding: `(n, X)` with `10^5 ≤ n < 10^6` and the
value printed as `n * 10^(X-5)`. -/
def sixDigits (N : Nat) : Nat × Int :=
  let k := decExp N 84
  let n := F32.roundHalfEven (N * 10 ^ (50 - k)) (2 ^ 149 * 10 ^ (k - 50))
  if n < 1000000 then (n, (k : Int) - 45) else (n / 10, (k : Int) - 44)

/-- Fixed or scientific text of six significant digits `n` with exponent `X`,
the way `%g` chooses and trims it. -/
def gText (n : Nat) (X : Int) : List Char :=
  let ds := zeroPad 6 n
  if -4 ≤ X ∧ X < 6 then
    if 0 ≤ X then
      let ip := ds.take (X.toNat + 1)
      let fp := stripZeros (ds.drop (X.toNat + 1))
      if fp.isEmpty then ip else ip ++ '.' :: fp
    else
      '0' :: '.' :: (List.replicate ((-X).toNat - 1) '0' ++ stripZeros ds)
  else
    let fp := stripZeros (ds.drop 1)
    let m := if fp.isEmpty then ds.take 1 else ds.take 1 ++ '.' :: fp
    let es := if X < 0 then '-' :: zeroPad 2 (-X).toNat else '+' :: zeroPad 2 X.toNat
    m ++ 'e' :: es

/-- Text of a `float` as `operator<<(float)` gives it with the stream's default
flags and precision 6 in the "C" locale (the `%g` conversion). -/
def floatText (a : F32) : List Char :=
  let s : List Char := if a.sign then ['-'] else []
  if a.isNaN then s ++ ['n', 'a', 'n']
  else if a.isInf then s ++ ['i', 'n', 'f']
  else if a.mag = 0 then s ++ ['0']
  else s ++ gText (sixDigits a.mag).1 (sixDigits a.mag).2

/-! ## Reading numbers -/

/-- Value of a decimal digit character. -/
def digitVal (c : Char) : Nat := c.toNat - 48

/-- Value of a string of decimal digits, most significant first. -/
def readNat (cs : List Char) : Nat := cs.foldl (fun a c => 10 * a + digitVal c) 0

/-- An optional sign in front of a number: whether it is `-`, and the rest. -/
def takeSign (cs : List Char) : Bool × List Char :=
  match cs with
  | '-' :: r => (true, r)
  | '+' :: r => (false, r)
  | r => (false, r)

/-- The exponent part of a decimal literal: nothing, or `e`/`E`, an optional
sign and at least one digit. -/
def readExponent (cs : List Char) : Option Int :=
  match cs with
  | [] => some 0
  | e :: r =>
    if e == 'e' || e == 'E' then
      let (neg, ds) := takeSign r
      if ds.isEmpty || !ds.all Char.isDigit then none
      else some (if neg then - (readNat ds : Int) else (readNat ds : Int))
    else none

/-- The nearest `float` to a plain decimal literal (optional sign, digits with
an optional point, optional exponent), when that `float` is zero or normal;
`none` for every other text.  The concrete world below reads its arguments
this way; no statement about all worlds depends on it. -/
def decimal_cast (s : String) : Option F32 :=
  let (neg, cs) := takeSign s.data
  let (ip, rest) := cs.span Char.isDigit
  let (fp, rest) := match rest with
    | '.' :: r => r.span Char.isDigit
    | r => ([], r)
  if ip.isEmpty && fp.isEmpty then none
  else
    match readExponent rest with
    | none => none
    | some ex =>
      let D := readNat (ip ++ fp)
      let k : Int := ex - (fp.length : Int)
      let a := F32.ofRatio neg (D * 10 ^ k.toNat) (10 ^ (-k).toNat)
      if a.isInf || (a.expo.val == 0 && D != 0) then none else some a

/-! ## `std::stringstream`, as far as line 197 uses it -/

/-- Output stream state: the text so far, the pending field width and the fill
character. -/
structure OStream where
  buf : List Char
  width : Nat
  fill : Char

namespace OStream

/-- A fresh `std::stringstream`: empty, width 0, fill `' '`. -/
def init : OStream := ⟨[], 0, ' '⟩

/-- A formatted insertion: the field is padded on the left with the fill
character up to the pending width, and the width is reset to 0. -/
def put (os : OStream) (field : List Char) : OStream :=
  { buf := os.buf ++ (List.replicate (os.width - field.length) os.fill ++ field)
    width := 0
    fill := os.fill }

/-- The manipulator `std::setw(n)`. -/
def setw (os : OStream) (n : Nat) : OStream := { os with width := n }

/-- The manipulator `std::setfill(c)`. -/
def setfill (os : OStream) (c : Char) : OStream := { os with fill := c }

/-- Insertion `<< "literal"`. -/
def putStr (os : OStream) (s : String) : OStream := os.put s.data

/-- Insertion `<< int`. -/
def putInt (os : OStream) (i : Int) : OStream := os.put (intText i)

/-- Insertion `<< float`. -/
def putFloat (os : OStream) (a : F32) : OStream := os.put (floatText a)

/-- The member `str()`. -/
def str (os : OStream) : String := String.mk os.buf

end OStream

/-- Line 197: the name of the file that slice `z` is written to. -/
def output_filename (z : Int) (t_l t_h t_s : F32) (ms : Int) : String :=
  let filename := OStream.init
  let filename := filename.putStr "watershed_"
  let filename := filename.setw 5
  let filename := filename.setfill '0'
  let filename := filename.putInt z
  let filename := filename.putStr "_"
  let filename := filename.putFloat t_l
  let filename := filename.putStr "_"
  let filename := filename.putFloat t_h
  let filename := filename.putStr "_"
  let filename := filename.putFloat t_s
  let filename := filename.putStr "_"
  let filename := filename.putInt ms
  let filename := filename.putStr ".tif"
  filename.str

/-! ## The merge policy, lines 90-106 -/

/-- The `struct dynamic_size_threshold`: an `int ms` and a `float t`. -/
structure dynamic_size_threshold where
  ms : Int
  t : F32

/-- The constructor `dynamic_size_threshold(int min_size, float threshold)`. -/
def dynamic_size_threshold.new (min_size : Int) (threshold : F32) : dynamic_size_threshold :=
  { ms := min_size, t := threshold }

/-- Conversion of an `int` to `std::size_t` (64 bits): reduction modulo `2^64`. -/
def toSizeT (i : Int) : Nat := (i % 18446744073709551616).toNat

/-- The call operator `std::size_t operator()(float v) const`. -/
def dynamic_size_threshold.call (p : dynamic_size_threshold) (v : F32) : Nat :=
  if F32.lt v p.t then 0 else toSizeT p.ms

/-! ## The file system and the image library, as the driver sees them -/

/-- One entry that a `boost::filesystem::directory_iterator` yields: its file
name and whether `is_regular_file` holds for it. -/
structure DirEntry where
  leaf : String
  regular : Bool
deriving DecidableEq

/-- A `boost::filesystem::path` of a directory entry: the directory that was
iterated and the entry's file name.  The default-constructed path is empty. -/
structure Path where
  dir : String
  leaf : String
deriving DecidableEq, Inhabited

/-- The order `operator<` of two paths: element by element, each element as a
string.  Entries of one directory share their leading elements, so they are
ordered by file name. -/
def Path.lt (a b : Path) : Prop := a.dir < b.dir ∨ (a.dir = b.dir ∧ a.leaf < b.leaf)

instance (a b : Path) : Decidable (Path.lt a b) := by unfold Path.lt; exact inferInstance

/-- An image file as vigra imports it into a `MultiArray<2, float>`. -/
structure Image where
  width : Nat
  height : Nat
  data : Nat → Nat → F32

/-- What the run finds outside the program: the argument parser
`boost::lexical_cast<float>` (`none`: it throws `bad_lexical_cast`), the
directory listings in enumeration order (`none`: the iterator throws), the
image files (`none`: vigra throws), and whether an export succeeds. -/
structure World where
  lexical_cast_float : String → Option F32
  entries : String → Option (List DirEntry)
  image : Path → Option Image
  exportImage : String → Bool

/-- The `affinity_graph<float>`: a four-dimensional array with its extents.
Outside the extents `data` is never read. -/
structure AffinityGraph where
  size_x : Nat
  size_y : Nat
  size_z : Nat
  size_c : Nat
  data : Nat → Nat → Nat → Nat → F32

/-- The label volume that `simple_watershed<uint32_t>` returns. -/
structure Segmentation where
  size_x : Nat
  size_y : Nat
  size_z : Nat
  label : Nat → Nat → Nat → Nat

/-- Errors: the exceptions of the libraries the driver calls, and the error
taxonomy of the segmentation core. -/
inductive Failure
  | bad_lexical_cast
  | filesystem_error
  | image_error
  | ShapeMismatch
  | EmptyVolume
  | InvalidThreshold
  | MalformedAffinity
  | LabelConsistencyViolation
deriving DecidableEq

/-- What `simple_watershed` hands back: the pair (segmentation, number of
segments) and the `counts` it fills. -/
structure WatershedResult where
  segmentation : Segmentation
  num_segments : Nat
  counts : List Nat

/-- The functions of `just_watershed.hpp` that the driver calls. -/
structure Engine where
  simple_watershed : AffinityGraph → F32 → F32 → Except Failure WatershedResult
  get_region_graph : AffinityGraph → Segmentation → Int → Except Failure Unit

/-- How the process ends: `main` returns a code, an exception leaves `main`
(`std::terminate`), or the run meets undefined behaviour. -/
inductive Stop
  | exit (code : Int)
  | uncaught (e : Failure)
  | undefined
deriving DecidableEq

/-- The observable steps of a run, in order. -/
inductive Event
  | stdout (text : String)
  | stderr (text : String)
  | list (dir : String)
  | info (file : Path)
  | importImage (file : Path)
  | simple_watershed (aff : AffinityGraph) (t_l t_h : F32)
  | get_region_graph (aff : AffinityGraph) (seg : Segmentation) (n : Int)
  | exportImage (filename : String) (data : Image)

/-- A computation of the driver: the events so far and either a value or the
way the process stopped. -/
def Prog (α : Type) : Type := List Event × Except Stop α

/-- Sequencing: events accumulate, a stop ends the computation. -/
def Prog.bind {α β : Type} (m : Prog α) (f : α → Prog β) : Prog β :=
  match m with
  | (t, .error s) => (t, .error s)
  | (t, .ok a) => (t ++ (f a).1, (f a).2)

instance : Monad Prog where
  pure a := ([], .ok a)
  bind := Prog.bind

/-- Record one event. -/
def Prog.emit (e : Event) : Prog Unit := ([e], .ok ())

/-- Stop the process. -/
def Prog.stop {α : Type} (s : Stop) : Prog α := ([], .error s)

/-- A library call that may throw. -/
def Prog.ofExcept {α : Type} (r : Except Failure α) : Prog α :=
  match r with
  | .ok a => ([], .ok a)
  | .error e => ([], .error (.uncaught e))

/-- Unchecked `operator[]` of a `std::vector`: out of range is undefined. -/
def Prog.index {α : Type} (xs : List α) (i : Nat) : Prog α :=
  match xs[i]? with
  | some a => ([], .ok a)
  | none => ([], .error .undefined)

/-- A finished run: its events and how it ended. -/
structure Run where
  trace : List Event
  outcome : Stop

/-! ## The helper functions, lines 14-88 -/

/-- Lines 14-23: `num_files`, the count of regular files in a directory.  The
count is a natural number: the `int n` of the source overflows only past
`2^31 - 1` entries. -/
def num_files (W : World) (p : String) : Prog Nat := do
  Prog.emit (.list p)
  match W.entries p with
  | none => Prog.stop (.uncaught .filesystem_error)
  | some es => pure (es.foldl (fun n i => if i.regular then n + 1 else n) 0)

/-- Lines 25-34: `files`, the regular files of a directory in enumeration
order. -/
def files (W : World) (p : String) : Prog (List Path) := do
  Prog.emit (.list p)
  match W.entries p with
  | none => Prog.stop (.uncaught .filesystem_error)
  | some es => pure (es.foldl (fun fs i => if i.regular then fs ++ [⟨p, i.leaf⟩] else fs) [])

/-- The assignment loop of `read_slice_channel`, lines 46-48: the view
`[range()][range()][z][c]` receives the image, pixel by pixel. -/
def AffinityGraph.assign (aff : AffinityGraph) (z c : Nat) (img : Image) : AffinityGraph :=
  { aff with
    data := fun x y z' c' =>
      if x < img.width ∧ y < img.height ∧ z' = z ∧ c' = c then img.data x y
      else aff.data x y z' c' }

/-- Lines 36-49: `read_slice_channel`.  An image larger than the view makes
the loop index the view out of range. -/
def read_slice_channel (W : World) (aff : AffinityGraph) (z c : Nat) (file : Path) :
    Prog AffinityGraph := do
  Prog.emit (.info file)
  match W.image file with
  | none => Prog.stop (.uncaught .image_error)
  | some img =>
    Prog.emit (.importImage file)
    if img.width = 0 ∨ img.height = 0 ∨ (img.width ≤ aff.size_x ∧ img.height ≤ aff.size_y) then
      pure (aff.assign z c img)
    else
      Prog.stop .undefined

/-- Lines 51-68: `read_slice`, the three channels of one section. -/
def read_slice (W : World) (aff : AffinityGraph) (z : Nat)
    (aff_x_file aff_y_file aff_z_file : Path) : Prog AffinityGraph := do
  let aff ← read_slice_channel W aff z 0 aff_x_file
  let aff ← read_slice_channel W aff z 1 aff_y_file
  read_slice_channel W aff z 2 aff_z_file

/-- The pixels that `write_slice` copies out of slice `z` of the label volume,
lines 76-83: each `uint32_t` label converted to `float`. -/
def Segmentation.slice (seg : Segmentation) (z : Nat) : Image :=
  { width := seg.size_x
    height := seg.size_y
    data := fun x y => if x < seg.size_x ∧ y < seg.size_y then F32.ofNat (seg.label x y z)
      else F32.zero }

/-- Lines 70-88: `write_slice`. -/
def write_slice (W : World) (seg : Segmentation) (z : Nat) (filename : String) : Prog Unit := do
  if seg.size_z ≤ z then Prog.stop .undefined
  Prog.emit (.exportImage filename (seg.slice z))
  if W.exportImage filename then pure () else Prog.stop (.uncaught .image_error)

/-- The member `resize(n)` of a `std::vector`: cut, or fill with
default-constructed elements. -/
def resize {α : Type} [Inhabited α] (n : Nat) (xs : List α) : List α :=
  xs.take n ++ List.replicate (n - xs.length) default

/-- The call `std::sort(v.begin(), v.end())` on paths. -/
def sort (xs : List Path) : List Path := xs.insertionSort (fun a b => ¬ Path.lt b a)

/-- A fresh `affinity_graph<float>` of the given extents, zero-filled. -/
def AffinityGraph.new (size_x size_y size_z size_c : Nat) : AffinityGraph :=
  { size_x := size_x, size_y := size_y, size_z := size_z, size_c := size_c
    data := fun _ _ _ _ => F32.zero }

/-- Conversion of a `std::size_t` to `int`. -/
def toInt32 (n : Nat) : Int := ((n + 2147483648) % 4294967296 : Nat) - 2147483648

/-- One `boost::lexical_cast<float>(text)`. -/
def lexical_cast (W : World) (text : String) : Prog F32 :=
  match W.lexical_cast_float text with
  | some a => pure a
  | none => Prog.stop (.uncaught .bad_lexical_cast)

/-- The initialisation `int ms = <float>` of line 122. -/
def float_to_int (a : F32) : Prog Int :=
  match a.toInt32? with
  | some i => pure i
  | none => Prog.stop .undefined

/-! ## `main`, lines 108-200 -/

/-- The argument `argv[i]`. -/
def arg (argv : List String) (i : Nat) : String := argv.getD i ""

/-- The body of `main`; `argv` includes the program name, `argc` is its length. -/
def main_body (W : World) (E : Engine) (argv : List String) : Prog Unit := do
  if argv.length < 8 then
    Prog.emit (.stdout "usage: watershed <aff_x_dir> <aff_y_dir> <aff_z_dir> <t_l> <t_h> <t_s> <ms>\n")
    Prog.stop (.exit 1)
  let aff_x_dir := arg argv 1
  let aff_y_dir := arg argv 2
  let aff_z_dir := arg argv 3
  let t_l ← lexical_cast W (arg argv 4)
  let t_h ← lexical_cast W (arg argv 5)
  let t_s ← lexical_cast W (arg argv 6)
  let ms ← lexical_cast W (arg argv 7) >>= float_to_int
  Prog.emit (.stdout ("Performing affinity graph watershed on volumes "
    ++ aff_x_dir ++ ", " ++ aff_y_dir ++ ", " ++ aff_z_dir ++ "\n"))
  let size_z ← num_files W aff_x_dir
  let differ ← (do
    if size_z ≠ (← num_files W aff_y_dir) then pure true
    else pure (decide (size_z ≠ (← num_files W aff_z_dir))))
  if differ then
    Prog.emit (.stderr "directories contain different number of files\n")
    Prog.stop (.exit 1)
  if size_z = 0 then
    Prog.emit (.stderr "directories contain no files\n")
    Prog.stop (.exit 1)
  let aff_x_files ← files W aff_x_dir
  let aff_y_files ← files W aff_y_dir
  let aff_z_files ← files W aff_z_dir
  let aff_x_files := resize 1 aff_x_files
  let aff_y_files := resize 1 aff_y_files
  let aff_z_files := resize 1 aff_z_files
  let size_z := 1
  let aff_x_files := sort aff_x_files
  let aff_y_files := sort aff_y_files
  let aff_z_files := sort aff_z_files
  let file0 ← Prog.index aff_x_files 0
  Prog.emit (.info file0)
  let info ← (match W.image file0 with
    | some img => pure img
    | none => Prog.stop (.uncaught .image_error))
  let size_x := info.width
  let size_y := info.height
  Prog.emit (.stdout ("reading affinity graph of size " ++ String.mk (natText size_x) ++ "x"
    ++ String.mk (natText size_y) ++ "x" ++ String.mk (natText size_z) ++ "\n"))
  let aff := AffinityGraph.new size_x size_y size_z 3
  let aff ← (List.range size_z).foldlM (fun aff z => do
    let fx ← Prog.index aff_x_files z
    let fy ← Prog.index aff_y_files z
    let fz ← Prog.index aff_z_files z
    read_slice W aff z fx fy fz) aff
  Prog.emit (.stdout "performing simple_watershed\n")
  Prog.emit (.simple_watershed aff t_l t_h)
  let result ← Prog.ofExcept (E.simple_watershed aff t_l t_h)
  let segmentation := result.segmentation
  let num_segments := toInt32 result.num_segments
  Prog.emit (.stdout ("found " ++ String.mk (intText num_segments) ++ " segments\n"))
  Prog.emit (.get_region_graph aff segmentation num_segments)
  Prog.ofExcept (E.get_region_graph aff segmentation num_segments)
  Prog.emit (.stdout "performing region merging\n")
  (List.range size_z).forM (fun z =>
    write_slice W segmentation z (output_filename (z : Int) t_l t_h t_s ms))

/-- The program: a run of `main`.  Falling off the end of `main` returns 0. -/
def main (W : World) (E : Engine) (argv : List String) : Run :=
  { trace := (main_body W E argv).1
    outcome := match (main_body W E argv).2 with
      | .ok _ => .exit 0
      | .error s => s }

/-! ## Notions used to state the properties of a run -/

/-- The regular files of a directory listing as paths, in enumeration order:
what `files` returns. -/
def regular_files (p : String) (es : List DirEntry) : List Path :=
  (es.filter (fun i => i.regular)).map (fun i => ⟨p, i.leaf⟩)

/-- The affinity graph that lines 164-173 build from the images of the three
files of section 0. -/
def load (ix iy iz : Image) : AffinityGraph :=
  (((AffinityGraph.new ix.width ix.height 1 3).assign 0 0 ix).assign 0 1 iy).assign 0 2 iz

/-- An image whose pixels all lie inside a view of the extents of `ix`. -/
def Image.fits (img ix : Image) : Prop :=
  img.width = 0 ∨ img.height = 0 ∨ (img.width ≤ ix.width ∧ img.height ≤ ix.height)

/-- The events of lines 124-134 when the three directories can be listed. -/
def start_events (argv : List String) : List Event :=
  [ .stdout ("Performing affinity graph watershed on volumes "
      ++ arg argv 1 ++ ", " ++ arg argv 2 ++ ", " ++ arg argv 3 ++ "\n"),
    .list (arg argv 1), .list (arg argv 2), .list (arg argv 3) ]

/-- The events of lines 146-175 when the three files of section 0 can be read. -/
def read_events (argv : List String) (x0 y0 z0 : Path) (ix : Image) : List Event :=
  [ .list (arg argv 1), .list (arg argv 2), .list (arg argv 3),
    .info x0,
    .stdout ("reading affinity graph of size " ++ String.mk (natText ix.width) ++ "x"
      ++ String.mk (natText ix.height) ++ "x" ++ String.mk (natText 1) ++ "\n"),
    .info x0, .importImage x0, .info y0, .importImage y0, .info z0, .importImage z0,
    .stdout "performing simple_watershed\n" ]

/-- The files handed to `vigra::importImage` during a run, in order. -/
def imports (t : List Event) : List Path :=
  t.filterMap (fun e => match e with
    | .importImage f => some f
    | _ => none)

/-- The slices handed to `vigra::exportImage` during a run: name and pixels. -/
def exports (t : List Event) : List (String × Image) :=
  t.filterMap (fun e => match e with
    | .exportImage f d => some (f, d)
    | _ => none)

/-- The calls of `simple_watershed` during a run: graph and thresholds. -/
def watershed_calls (t : List Event) : List (AffinityGraph × F32 × F32) :=
  t.filterMap (fun e => match e with
    | .simple_watershed aff t_l t_h => some (aff, t_l, t_h)
    | _ => none)

/-- Whether an event touches an image file or the engine. -/
def Event.isWork (e : Event) : Bool :=
  match e with
  | .info _ => true
  | .importImage _ => true
  | .simple_watershed _ _ _ => true
  | .get_region_graph _ _ _ => true
  | .exportImage _ _ => true
  | _ => false

/-- Whether an event is console output, a directory listing or an image read:
the events of the stages before the engine is called. -/
def Event.isInput (e : Event) : Bool :=
  match e with
  | .stdout _ => true
  | .stderr _ => true
  | .list _ => true
  | .info _ => true
  | .importImage _ => true
  | _ => false

/-- How a run ends after the last stage: `main` returns 0, or the stop. -/
def outcomeOf (r : Except Stop Unit) : Stop :=
  match r with
  | .ok _ => .exit 0
  | .error s => s

/-- The event with the name of an exported file blanked. -/
def Event.eraseName (e : Event) : Event :=
  match e with
  | .exportImage _ d => .exportImage "" d
  | e => e

/-- A `float` that holds exactly the integer `n`. -/
def F32.holdsInt (a : F32) (n : Int) : Prop :=
  a.isFinite = true ∧ a.key = n * 2 ^ 149

/-- The four numeric arguments of a run. -/
structure Params where
  t_l : F32
  t_h : F32
  t_s : F32
  ms : Int

/-- Lines 119-122 of `main` as one computation. -/
def parse_args (W : World) (argv : List String) : Prog Params := do
  let t_l ← lexical_cast W (arg argv 4)
  let t_h ← lexical_cast W (arg argv 5)
  let t_s ← lexical_cast W (arg argv 6)
  let ms ← lexical_cast W (arg argv 7) >>= float_to_int
  pure ⟨t_l, t_h, t_s, ms⟩

/-- Lines 124-173 of `main` as one computation: from the directories to the
affinity graph. -/
def prepare (W : World) (aff_x_dir aff_y_dir aff_z_dir : String) : Prog AffinityGraph := do
  Prog.emit (.stdout ("Performing affinity graph watershed on volumes "
    ++ aff_x_dir ++ ", " ++ aff_y_dir ++ ", " ++ aff_z_dir ++ "\n"))
  let size_z ← num_files W aff_x_dir
  let differ ← (do
    if size_z ≠ (← num_files W aff_y_dir) then pure true
    else pure (decide (size_z ≠ (← num_files W aff_z_dir))))
  if differ then
    Prog.emit (.stderr "directories contain different number of files\n")
    Prog.stop (.exit 1)
  if size_z = 0 then
    Prog.emit (.stderr "directories contain no files\n")
    Prog.stop (.exit 1)
  let aff_x_files ← files W aff_x_dir
  let aff_y_files ← files W aff_y_dir
  let aff_z_files ← files W aff_z_dir
  let aff_x_files := resize 1 aff_x_files
  let aff_y_files := resize 1 aff_y_files
  let aff_z_files := resize 1 aff_z_files
  let size_z := 1
  let aff_x_files := sort aff_x_files
  let aff_y_files := sort aff_y_files
  let aff_z_files := sort aff_z_files
  let file0 ← Prog.index aff_x_files 0
  Prog.emit (.info file0)
  let info ← (match W.image file0 with
    | some img => pure img
    | none => Prog.stop (.uncaught .image_error))
  let size_x := info.width
  let size_y := info.height
  Prog.emit (.stdout ("reading affinity graph of size " ++ String.mk (natText size_x) ++ "x"
    ++ String.mk (natText size_y) ++ "x" ++ String.mk (natText size_z) ++ "\n"))
  let aff := AffinityGraph.new size_x size_y size_z 3
  (List.range size_z).foldlM (fun aff z => do
    let fx ← Prog.index aff_x_files z
    let fy ← Prog.index aff_y_files z
    let fz ← Prog.index aff_z_files z
    read_slice W aff z fx fy fz) aff

/-- Lines 175-187 of `main` as one computation: the calls into the engine. -/
def segment (E : Engine) (aff : AffinityGraph) (t_l t_h : F32) : Prog Segmentation := do
  Prog.emit (.stdout "performing simple_watershed\n")
  Prog.emit (.simple_watershed aff t_l t_h)
  let result ← Prog.ofExcept (E.simple_watershed aff t_l t_h)
  let segmentation := result.segmentation
  let num_segments := toInt32 result.num_segments
  Prog.emit (.stdout ("found " ++ String.mk (intText num_segments) ++ " segments\n"))
  Prog.emit (.get_region_graph aff segmentation num_segments)
  Prog.ofExcept (E.get_region_graph aff segmentation num_segments)
  Prog.emit (.stdout "performing region merging\n")
  pure segmentation

/-- Lines 193-199 of `main` as one computation, with `size_z = 1`. -/
def write_all (W : World) (segmentation : Segmentation) (p : Params) : Prog Unit :=
  (List.range 1).forM (fun z =>
    write_slice W segmentation z (output_filename (z : Int) p.t_l p.t_h p.t_s p.ms))

/-! ## The output name in the spec's words -/

/-- The decimal form of `z`, left-padded with `'0'` to width 5. -/
def pad5 (z : Nat) : String :=
  String.mk (List.replicate (5 - (natText z).length) '0' ++ natText z)

/-- The text `fmt(t)` of a threshold. -/
def fmtFloat (a : F32) : String := String.mk (floatText a)

/-- The text `fmt(ms)` of the minimum size. -/
def fmtInt (i : Int) : String := String.mk (intText i)

/-- The name of the output file as the spec words it: the fields `z`, `t_low`,
`t_high`, merge threshold and `min_size`, in this order, `z` alone padded. -/
def filename_spec (z : Nat) (t_l t_h t_s : F32) (ms : Int) : String :=
  "watershed_" ++ pad5 z ++ "_" ++ fmtFloat t_l ++ "_" ++ fmtFloat t_h ++ "_" ++ fmtFloat t_s
    ++ "_" ++ fmtInt ms ++ ".tif"

/-- A text without the field separator `'_'`. -/
def NoSep (cs : List Char) : Prop := ∀ c ∈ cs, c ≠ '_'

/-- Value of a list of decimal digits, least significant first. -/
def valRev : List Nat → Nat
  | [] => 0
  | d :: ds => d + 10 * valRev ds

/-! ## The watershed engine, from the spec

`just_watershed.hpp` is not among the sources; `simple_watershed` is modelled
from section 4.1 of the spec. -/

/-- Modelled from the spec: a voxel, by its coordinates `(x, y, z)`. -/
abbrev Voxel : Type := Nat × Nat × Nat

/-- Modelled from the spec: a voxel-edge, a voxel and the axis along which its
neighbour lies. -/
structure VoxelEdge where
  x : Nat
  y : Nat
  z : Nat
  axis : Nat
deriving DecidableEq

/-- Modelled from the spec: the voxel an edge starts at. -/
def VoxelEdge.src (e : VoxelEdge) : Voxel := (e.x, e.y, e.z)

/-- Modelled from the spec: the neighbour one step along the edge's axis. -/
def VoxelEdge.dst (e : VoxelEdge) : Voxel :=
  if e.axis = 0 then (e.x + 1, e.y, e.z)
  else if e.axis = 1 then (e.x, e.y + 1, e.z)
  else (e.x, e.y, e.z + 1)

/-- Modelled from the spec: the affinity an edge carries. -/
def AffinityGraph.weight (aff : AffinityGraph) (e : VoxelEdge) : F32 :=
  aff.data e.x e.y e.z e.axis

/-- Modelled from the spec: all voxels of the volume, `x` running fastest. -/
def AffinityGraph.voxels (aff : AffinityGraph) : List Voxel :=
  (List.range aff.size_z).flatMap (fun z =>
    (List.range aff.size_y).flatMap (fun y =>
      (List.range aff.size_x).map (fun x => (x, y, z))))

/-- Modelled from the spec: whether the neighbour along `axis` exists; boundary
edges do not. -/
def AffinityGraph.hasEdge (aff : AffinityGraph) (v : Voxel) (axis : Nat) : Bool :=
  if axis = 0 then decide (v.1 + 1 < aff.size_x)
  else if axis = 1 then decide (v.2.1 + 1 < aff.size_y)
  else decide (v.2.2 + 1 < aff.size_z)

/-- Modelled from the spec: step 1, all voxel-edges, boundary edges excluded,
by voxel then axis. -/
def AffinityGraph.edges (aff : AffinityGraph) : List VoxelEdge :=
  aff.voxels.flatMap (fun v =>
    ((List.range 3).filter (fun axis => aff.hasEdge v axis)).map
      (fun axis => ⟨v.1, v.2.1, v.2.2, axis⟩))

/-- Modelled from the spec: union of the components of `a` and `b` in a
union-find that maps every voxel to the representative of its component. -/
def union (rep : Voxel → Voxel) (a b : Voxel) : Voxel → Voxel :=
  fun v => if rep v = rep b then rep a else rep v

/-- Modelled from the spec: union along every edge of a list, in order. -/
def unionAll (rep : Voxel → Voxel) (es : List VoxelEdge) : Voxel → Voxel :=
  es.foldl (fun rep e => union rep e.src e.dst) rep

/-- Modelled from the spec: the distinct elements of a list in order of first
appearance (the order of first discovery of the components). -/
def firstSeen {α : Type} [DecidableEq α] (xs : List α) : List α :=
  xs.foldl (fun acc x => if x ∈ acc then acc else acc ++ [x]) []

/-- Modelled from the spec: position of the first occurrence of `x` in a list
(the dense label of a component, less one). -/
def position {α : Type} [DecidableEq α] (x : α) : List α → Nat
  | [] => 0
  | y :: ys => if y = x then 0 else position x ys + 1

/-- Modelled from the spec: `simple_watershed` of `just_watershed.hpp`, which
is missing from the sources; spec section 4.1 and the error taxonomy of
section 7.  Thresholds are checked first, then shape, volume and affinities.
Edges at or above `t_high` are united first; edges below `t_low` are dropped;
the others are united in descending weight order, ties in enumeration order;
components are numbered `1..num_segments` in order of first discovery and
their sizes counted. -/
def simple_watershed (aff : AffinityGraph) (t_low t_high : F32) :
    Except Failure WatershedResult :=
  if F32.gt t_low t_high || !t_low.isFinite || !t_high.isFinite then .error .InvalidThreshold
  else if aff.size_c ≠ 3 then .error .ShapeMismatch
  else if aff.size_x * aff.size_y * aff.size_z = 0 then .error .EmptyVolume
  else if aff.edges.any (fun e => !(aff.weight e).isFinite) then .error .MalformedAffinity
  else
    let high := aff.edges.filter (fun e => F32.ge (aff.weight e) t_high)
    let rep := unionAll id high
    let mid := aff.edges.filter (fun e => F32.ge (aff.weight e) t_low && F32.lt (aff.weight e) t_high)
    let mid := mid.insertionSort (fun a b => F32.ge (aff.weight a) (aff.weight b) = true)
    let rep := unionAll rep mid
    let roots := firstSeen (aff.voxels.map rep)
    .ok
      { segmentation :=
          { size_x := aff.size_x, size_y := aff.size_y, size_z := aff.size_z
            label := fun x y z =>
              if x < aff.size_x ∧ y < aff.size_y ∧ z < aff.size_z then
                position (rep (x, y, z)) roots + 1
              else 0 }
        num_segments := roots.length
        counts := roots.map (fun r => (aff.voxels.filter (fun v => rep v = r)).length) }

/-- Two voxels joined by a chain of voxel-edges of weight at least `t`. -/
def Joined (aff : AffinityGraph) (t : F32) : Voxel → Voxel → Prop :=
  Relation.EqvGen (fun a b => ∃ e ∈ aff.edges, F32.ge (aff.weight e) t = true ∧ e.src = a ∧ e.dst = b)

/-- Modelled from the spec: the engine whose `simple_watershed` is the one of
spec section 4.1; `get_region_graph` is left open. -/
def spec_engine (get_region_graph : AffinityGraph → Segmentation → Int → Except Failure Unit) :
    Engine :=
  { simple_watershed := fun aff t_low t_high => simple_watershed aff t_low t_high
    get_region_graph := get_region_graph }

/-! ## A concrete world

The example of section 8 of the spec: a 2×2×1 volume with voxels `A = (0,0)`,
`B = (1,0)`, `C = (0,1)`, `D = (1,1)`, x-affinities `A→B = 0.9`, `C→D = 0.9`
and y-affinities `A→C = 0.2`, `B→D = 0.1`. -/

/-- The x-affinity image: `0.9` in the column `x = 0`. -/
def demo_image_x : Image :=
  { width := 2, height := 2
    data := fun x _ => if x = 0 then F32.ofRatio false 9 10 else F32.zero }

/-- The y-affinity image: `0.2` at `A`, `0.1` at `B`. -/
def demo_image_y : Image :=
  { width := 2, height := 2
    data := fun x y =>
      if y = 0 then (if x = 0 then F32.ofRatio false 2 10 else F32.ofRatio false 1 10)
      else F32.zero }

/-- The z-affinity image: all zero. -/
def demo_image_z : Image :=
  { width := 2, height := 2, data := fun _ _ => F32.zero }

/-- Three directories of two files each, enumerated `b.tif` before `a.tif`,
an empty directory, and an export that always succeeds. -/
def demo_world : World :=
  { lexical_cast_float := decimal_cast
    entries := fun d =>
      if d = "aff_x" ∨ d = "aff_y" ∨ d = "aff_z" then
        some [⟨"sub", false⟩, ⟨"b.tif", true⟩, ⟨"a.tif", true⟩]
      else if d = "empty" then some []
      else none
    image := fun p =>
      if p.dir = "aff_x" then some demo_image_x
      else if p.dir = "aff_y" then some demo_image_y
      else if p.dir = "aff_z" then some demo_image_z
      else none
    exportImage := fun _ => true }

/-- The engine of the spec with a region-graph builder that succeeds. -/
def demo_engine : Engine := spec_engine (fun _ _ _ => .ok ())

/-- The result of a call that succeeded (an empty result otherwise). -/
def WatershedResult.get (r : Except Failure WatershedResult) : WatershedResult :=
  match r with
  | .ok a => a
  | .error _ => { segmentation := ⟨0, 0, 0, fun _ _ _ => 0⟩, num_segments := 0, counts := [] }

/-- Whether a call succeeded. -/
def WatershedResult.isOk (r : Except Failure WatershedResult) : Bool :=
  match r with
  | .ok _ => true
  | .error _ => false

/-- An engine whose segmentation has the extents of the graph and carries the
labels `2^24 + x`: in a volume at least two voxels wide the `uint32_t` labels
16777216 and 16777217 both occur.  Its region-graph builder succeeds. -/
def wide_label_engine : Engine :=
  { simple_watershed := fun aff _ _ =>
      .ok { segmentation := ⟨aff.size_x, aff.size_y, aff.size_z, fun x _ _ => 16777216 + x⟩
            num_segments := aff.size_x
            counts := [] }
    get_region_graph := fun _ _ _ => .ok () }

/-! # Theorems -/

/-! ## The merge policy -/

theorem F32.lt_trans_le {a b c : F32} (h1 : F32.le a b = true) (h2 : F32.lt b c = true) :
    F32.lt a c = true := by
  simp only [F32.le, F32.lt, Bool.and_eq_true, Bool.not_eq_true', decide_eq_true_eq] at *
  exact ⟨⟨h1.1.1, h2.1.2⟩, Int.lt_of_le_of_lt h1.2 h2.2⟩

theorem toSizeT_lt (i : Int) : toSizeT i < 18446744073709551616 := by
  unfold toSizeT
  have h := Int.emod_lt_of_pos i (show (0 : Int) < 18446744073709551616 by norm_num)
  have h0 := Int.emod_nonneg i (show (18446744073709551616 : Int) ≠ 0 by norm_num)
  omega

theorem toSizeT_cast (i : Int) : (toSizeT i : Int) = i % 18446744073709551616 := by
  unfold toSizeT
  have h0 := Int.emod_nonneg i (show (18446744073709551616 : Int) ≠ 0 by norm_num)
  omega

theorem toSizeT_of_nonneg (i : Int) (h0 : 0 ≤ i) (h1 : i < 2147483648) : (toSizeT i : Int) = i := by
  rw [toSizeT_cast]; omega

/-- C10: the size limit returned by `dynamic_size_threshold` is monotone in the
affinity and takes at most two values.  For every policy `(ms, t)`:
`v1 <= v2` gives `policy(v1) <= policy(v2)` as `std::size_t` values; every
`policy(v)` is below `2^64` and is `0` or `ms mod 2^64`; and a negative `int`
`ms` is returned, where the affinity is not below `t`, as `2^64 + ms`, a
positive limit. -/
theorem policy_monotone_two_valued (ms : Int) (t : F32) :
    (∀ v1 v2 : F32, F32.le v1 v2 = true →
      (dynamic_size_threshold.new ms t).call v1 ≤ (dynamic_size_threshold.new ms t).call v2) ∧
    (∀ v : F32, (dynamic_size_threshold.new ms t).call v < 18446744073709551616 ∧
      ((dynamic_size_threshold.new ms t).call v = 0 ∨
        ((dynamic_size_threshold.new ms t).call v : Int) = ms % 18446744073709551616)) ∧
    (∀ v : F32, -2147483648 ≤ ms → ms < 0 → F32.lt v t = false →
      ((dynamic_size_threshold.new ms t).call v : Int) = 18446744073709551616 + ms ∧
      0 < (dynamic_size_threshold.new ms t).call v) := by
  refine ⟨?_, ?_, ?_⟩
  · intro v1 v2 h
    simp only [dynamic_size_threshold.call, dynamic_size_threshold.new]
    by_cases h2 : F32.lt v2 t = true
    · rw [if_pos (F32.lt_trans_le h h2)]; exact Nat.zero_le _
    · rw [if_neg h2]; split <;> simp
  · intro v
    simp only [dynamic_size_threshold.call, dynamic_size_threshold.new]
    split
    · exact ⟨by norm_num, Or.inl rfl⟩
    · exact ⟨toSizeT_lt ms, Or.inr (toSizeT_cast ms)⟩
  · intro v hlo hneg hv
    simp only [dynamic_size_threshold.call, dynamic_size_threshold.new, hv]
    have := toSizeT_cast ms
    simp only [Bool.false_eq_true, if_false]
    omega



/-- The policy `(-3, 0.5)` at the affinities `0.3` and `1`. -/
theorem policy_monotone_two_valued_witness :
    (dynamic_size_threshold.new (-3) ⟨false, 126, 0⟩).call ⟨false, 125, 1677722⟩
      ≤ (dynamic_size_threshold.new (-3) ⟨false, 126, 0⟩).call ⟨false, 127, 0⟩ ∧
    (((dynamic_size_threshold.new (-3) ⟨false, 126, 0⟩).call ⟨false, 127, 0⟩ : Nat) : Int)
      = 18446744073709551616 + (-3) ∧
    0 < (dynamic_size_threshold.new (-3) ⟨false, 126, 0⟩).call ⟨false, 127, 0⟩ :=
  ⟨(policy_monotone_two_valued (-3) ⟨false, 126, 0⟩).1 ⟨false, 125, 1677722⟩ ⟨false, 127, 0⟩
      (by decide!),
   (policy_monotone_two_valued (-3) ⟨false, 126, 0⟩).2.2 ⟨false, 127, 0⟩ (by decide) (by decide)
      (by decide!)⟩

theorem F32.ge_iff_not_lt {v t : F32} (hv : v.isNaN = false) (ht : t.isNaN = false) :
    F32.ge v t = true ↔ F32.lt v t = false := by
  simp only [F32.ge, F32.le, F32.lt, hv, ht, Bool.not_false, Bool.true_and, decide_eq_true_eq,
    decide_eq_false_iff_not, Int.not_lt]

theorem F32.lt_false_of_ge {v t : F32} (h : F32.ge v t = true) : F32.lt v t = false := by
  simp only [F32.ge, F32.le, F32.lt, Bool.and_eq_true, Bool.not_eq_true', decide_eq_true_eq] at h
  simp only [F32.lt, h.1.1, h.1.2, Bool.not_false, Bool.true_and, decide_eq_false_iff_not,
    Int.not_lt]
  exact h.2

/-- A region is below the limit of the policy exactly when it is below
`min_size` and the affinity is not below the threshold. -/
theorem policy_below_limit_iff (min_size : Int) (t v : F32) (s : Nat)
    (h0 : 0 ≤ min_size) (h1 : min_size < 2147483648) :
    s < (dynamic_size_threshold.new min_size t).call v ↔
      ((s : Int) < min_size ∧ F32.lt v t = false) := by
  have hc := toSizeT_of_nonneg min_size h0 h1
  simp only [dynamic_size_threshold.call, dynamic_size_threshold.new]
  cases hlt : F32.lt v t
  · simp only [Bool.false_eq_true, if_false, and_true]
    omega
  · simp

/-- C2 (amended): for every `min_size >= 0` (an `int`), threshold `t` and
affinity `v` the policy returns `0` when `v < t` and `min_size` when `v >= t`;
and when neither `v` nor `t` is NaN, a region of size `s` satisfies
`s < policy(v)` exactly when `s < min_size` and `v >= t`. -/
theorem policy_size_limit (min_size : Int) (t v : F32) (s : Nat)
    (h0 : 0 ≤ min_size) (h1 : min_size < 2147483648) :
    (F32.lt v t = true → (dynamic_size_threshold.new min_size t).call v = 0) ∧
    (F32.ge v t = true → ((dynamic_size_threshold.new min_size t).call v : Int) = min_size) ∧
    (v.isNaN = false → t.isNaN = false →
      (s < (dynamic_size_threshold.new min_size t).call v ↔
        ((s : Int) < min_size ∧ F32.ge v t = true))) := by
  have hc := toSizeT_of_nonneg min_size h0 h1
  refine ⟨?_, ?_, ?_⟩
  · intro h
    simp [dynamic_size_threshold.call, dynamic_size_threshold.new, h]
  · intro h
    simp only [dynamic_size_threshold.call, dynamic_size_threshold.new, F32.lt_false_of_ge h]
    simpa using hc
  · intro hv ht
    rw [policy_below_limit_iff min_size t v s h0 h1, F32.ge_iff_not_lt hv ht]

/-- The policy `(5, 0.5)` at affinity `1` and region size `3`. -/
theorem policy_size_limit_witness :
    ((3 : Nat) < (dynamic_size_threshold.new 5 ⟨false, 126, 0⟩).call ⟨false, 127, 0⟩ ↔
      (((3 : Nat) : Int) < 5 ∧ F32.ge ⟨false, 127, 0⟩ ⟨false, 126, 0⟩ = true)) :=
  (policy_size_limit 5 ⟨false, 126, 0⟩ ⟨false, 127, 0⟩ 3 (by decide) (by decide)).2.2
    (by decide) (by decide)

/-- With `min_size = 5`, `t = 0.5` and a NaN affinity the policy returns `5`:
a region of size `0` is below the limit although `v >= t` does not hold. -/
theorem policy_nan_counterexample :
    (0 : Nat) < (dynamic_size_threshold.new 5 ⟨false, 126, 0⟩).call F32.qnan ∧
      ¬ ((((0 : Nat) : Int) < 5) ∧ F32.ge F32.qnan ⟨false, 126, 0⟩ = true) := by
  decide!

/-! ## The name of the output file -/

theorem intText_ofNat (n : Nat) : intText (n : Int) = natText n := rfl

theorem digitVal_digitChar (d : Nat) (h : d < 10) : digitVal (Nat.digitChar d) = d := by
  interval_cases d <;> rfl

theorem digitsRev_lt (fuel n : Nat) : ∀ d ∈ digitsRev fuel n, d < 10 := by
  induction fuel generalizing n with
  | zero => simp [digitsRev]
  | succ f ih =>
    intro d hd
    simp only [digitsRev] at hd
    split at hd
    · simp at hd; omega
    · simp at hd
      rcases hd with h | h
      · omega
      · exact ih _ _ h

theorem valRev_digitsRev (fuel n : Nat) (h : n < fuel) : valRev (digitsRev fuel n) = n := by
  induction fuel generalizing n with
  | zero => omega
  | succ f ih =>
    simp only [digitsRev]
    split
    · simp [valRev]
    · simp only [valRev]
      rw [ih (n / 10) (by omega)]
      omega

theorem readNat_append_digit (cs : List Char) (c : Char) :
    readNat (cs ++ [c]) = 10 * readNat cs + digitVal c := by
  simp [readNat, List.foldl_append]

theorem readNat_map_reverse (ds : List Nat) (h : ∀ d ∈ ds, d < 10) :
    readNat (ds.reverse.map Nat.digitChar) = valRev ds := by
  induction ds with
  | nil => rfl
  | cons d ds ih =>
    simp only [List.reverse_cons, List.map_append, List.map_cons, List.map_nil]
    rw [readNat_append_digit, ih (fun x hx => h x (List.mem_cons_of_mem _ hx)),
      digitVal_digitChar d (h d (List.mem_cons_self _ _))]
    simp [valRev]; omega

theorem readNat_natText (n : Nat) : readNat (natText n) = n := by
  unfold natText
  rw [readNat_map_reverse _ (digitsRev_lt _ _), valRev_digitsRev _ _ (Nat.lt_succ_self n)]

theorem readNat_zeros (k : Nat) (cs : List Char) :
    readNat (List.replicate k '0' ++ cs) = readNat cs := by
  induction k with
  | zero => rfl
  | succ k ih =>
    simp only [List.replicate_succ, List.cons_append, readNat, List.foldl_cons] at ih ⊢
    have h0 : 10 * 0 + digitVal '0' = 0 := by decide
    rw [h0]; exact ih

theorem NoSep.append {a b : List Char} (ha : NoSep a) (hb : NoSep b) : NoSep (a ++ b) := by
  intro c hc
  rcases List.mem_append.1 hc with h | h
  · exact ha c h
  · exact hb c h

theorem NoSep.cons {c : Char} {a : List Char} (hc : c ≠ '_') (ha : NoSep a) : NoSep (c :: a) := by
  intro d hd
  rcases List.mem_cons.1 hd with h | h
  · exact h ▸ hc
  · exact ha d h

theorem NoSep.nil : NoSep [] := by intro c hc; cases hc

theorem NoSep.of_subset {a b : List Char} (hb : NoSep b) (h : ∀ c ∈ a, c ∈ b) : NoSep a :=
  fun c hc => hb c (h c hc)

theorem NoSep.replicate (k : Nat) {c : Char} (hc : c ≠ '_') : NoSep (List.replicate k c) := by
  intro d hd
  rw [(List.mem_replicate.1 hd).2]; exact hc

theorem natText_isDigit (n : Nat) : ∀ c ∈ natText n, c.isDigit = true := by
  intro c hc
  simp only [natText, List.mem_map, List.mem_reverse] at hc
  obtain ⟨d, hd, rfl⟩ := hc
  have := digitsRev_lt _ _ d hd
  interval_cases d <;> decide

theorem natText_noSep (n : Nat) : NoSep (natText n) := by
  intro c hc h
  have := natText_isDigit n c hc
  rw [h] at this
  exact absurd this (by decide)

theorem zeroPad_noSep (w n : Nat) : NoSep (zeroPad w n) :=
  NoSep.append (NoSep.replicate _ (by decide)) (natText_noSep n)

theorem intText_noSep (i : Int) : NoSep (intText i) := by
  cases i with
  | ofNat n => exact natText_noSep n
  | negSucc n => exact NoSep.cons (by decide) (natText_noSep _)

theorem stripZeros_subset (cs : List Char) : ∀ c ∈ stripZeros cs, c ∈ cs := by
  intro c hc
  simp only [stripZeros, List.mem_reverse] at hc
  have := (List.dropWhile_sublist (fun c => c == '0') (l := cs.reverse)).subset hc
  simpa using this

theorem gText_noSep (n : Nat) (X : Int) : NoSep (gText n X) := by
  have hz := zeroPad_noSep 6 n
  have hs : NoSep (stripZeros (zeroPad 6 n)) := hz.of_subset (stripZeros_subset _)
  have ht : ∀ k, NoSep ((zeroPad 6 n).take k) := fun k => hz.of_subset (fun c hc => List.mem_of_mem_take hc)
  have hd : ∀ k, NoSep ((zeroPad 6 n).drop k) := fun k => hz.of_subset (fun c hc => List.mem_of_mem_drop hc)
  have hsd : ∀ k, NoSep (stripZeros ((zeroPad 6 n).drop k)) :=
    fun k => (hd k).of_subset (stripZeros_subset _)
  unfold gText
  simp only []
  split
  · split
    · split
      · exact ht _
      · exact (ht _).append (NoSep.cons (by decide) (hsd _))
    · exact NoSep.cons (by decide) (NoSep.cons (by decide)
        ((NoSep.replicate _ (by decide)).append hs))
  · refine NoSep.append ?_ (NoSep.cons (by decide) ?_)
    · split
      · exact ht _
      · exact (ht _).append (NoSep.cons (by decide) (hsd _))
    · split
      · exact NoSep.cons (by decide) (zeroPad_noSep _ _)
      · exact NoSep.cons (by decide) (zeroPad_noSep _ _)

theorem floatText_noSep (a : F32) : NoSep (floatText a) := by
  have hs : NoSep (if a.sign then ['-'] else []) := by
    split
    · exact NoSep.cons (by decide) NoSep.nil
    · exact NoSep.nil
  unfold floatText
  simp only []
  split
  · exact hs.append (NoSep.cons (by decide) (NoSep.cons (by decide) (NoSep.cons (by decide) NoSep.nil)))
  · split
    · exact hs.append (NoSep.cons (by decide) (NoSep.cons (by decide) (NoSep.cons (by decide) NoSep.nil)))
    · split
      · exact hs.append (NoSep.cons (by decide) NoSep.nil)
      · exact hs.append (gText_noSep _ _)

theorem split_at_sep {a a' r r' : List Char} (ha : NoSep a) (ha' : NoSep a')
    (h : a ++ '_' :: r = a' ++ '_' :: r') : a = a' ∧ r = r' := by
  induction a generalizing a' with
  | nil =>
    cases a' with
    | nil => simpa using h
    | cons c cs =>
      simp only [List.nil_append, List.cons_append, List.cons.injEq] at h
      exact absurd h.1.symm (ha' c (List.mem_cons_self _ _))
  | cons c cs ih =>
    cases a' with
    | nil =>
      simp only [List.nil_append, List.cons_append, List.cons.injEq] at h
      exact absurd h.1 (ha c (List.mem_cons_self _ _))
    | cons c' cs' =>
      simp only [List.cons_append, List.cons.injEq] at h
      obtain ⟨h1, h2⟩ := ih (fun x hx => ha x (List.mem_cons_of_mem _ hx))
        (fun x hx => ha' x (List.mem_cons_of_mem _ hx)) h.2
      exact ⟨by rw [h.1, h1], h2⟩

theorem natText_injective {m n : Nat} (h : natText m = natText n) : m = n := by
  have := congrArg readNat h
  rwa [readNat_natText, readNat_natText] at this

theorem intText_injective {i j : Int} (h : intText i = intText j) : i = j := by
  have hd : ∀ n (cs : List Char), natText n ≠ '-' :: cs := by
    intro n cs hcs
    have := natText_isDigit n '-' (by rw [hcs]; exact List.mem_cons_self _ _)
    exact absurd this (by decide)
  cases i with
  | ofNat m =>
    cases j with
    | ofNat n => simp only [intText] at h; rw [natText_injective h]
    | negSucc n => simp only [intText] at h; exact absurd h (hd _ _)
  | negSucc m =>
    cases j with
    | ofNat n => simp only [intText] at h; exact absurd h.symm (hd _ _)
    | negSucc n =>
      simp only [intText, List.cons.injEq, true_and] at h
      have := natText_injective h
      have : m = n := by omega
      rw [this]


theorem output_filename_eq_spec (z : Nat) (t_l t_h t_s : F32) (ms : Int) :
    output_filename (z : Int) t_l t_h t_s ms = filename_spec z t_l t_h t_s ms := by
  apply String.ext
  simp [output_filename, filename_spec, pad5, fmtFloat, fmtInt, OStream.str, OStream.putStr,
    OStream.putInt, OStream.putFloat, OStream.put, OStream.setw, OStream.setfill, OStream.init,
    intText_ofNat]

theorem pad5_noSep (z : Nat) : NoSep (pad5 z).data :=
  NoSep.append (NoSep.replicate _ (by decide)) (natText_noSep z)

theorem readNat_pad5 (z : Nat) : readNat (pad5 z).data = z := by
  unfold pad5; simp only []; rw [readNat_zeros, readNat_natText]

theorem filename_spec_inj {z z' : Nat} {t_l t_h t_s t_l' t_h' t_s' : F32} {ms ms' : Int}
    (h : filename_spec z t_l t_h t_s ms = filename_spec z' t_l' t_h' t_s' ms') :
    z = z' ∧ fmtFloat t_l = fmtFloat t_l' ∧ fmtFloat t_h = fmtFloat t_h' ∧
      fmtFloat t_s = fmtFloat t_s' ∧ ms = ms' := by
  have hd := congrArg String.data h
  simp only [filename_spec, fmtFloat, fmtInt, String.data_append, List.append_assoc] at hd
  have hd := List.append_cancel_left hd
  have e1 : ∀ r : List Char, "_".data ++ r = '_' :: r := fun _ => rfl
  simp only [e1] at hd
  obtain ⟨hz, hd⟩ := split_at_sep (pad5_noSep z) (pad5_noSep z') hd
  obtain ⟨h1, hd⟩ := split_at_sep (floatText_noSep _) (floatText_noSep _) hd
  obtain ⟨h2, hd⟩ := split_at_sep (floatText_noSep _) (floatText_noSep _) hd
  obtain ⟨h3, hd⟩ := split_at_sep (floatText_noSep _) (floatText_noSep _) hd
  have h4 := intText_injective (List.append_cancel_right hd)
  have hz' := congrArg readNat hz
  rw [readNat_pad5, readNat_pad5] at hz'
  exact ⟨hz', by simp [fmtFloat, h1], by simp [fmtFloat, h2], by simp [fmtFloat, h3], h4⟩

/-- C5 (amended): for every slice index `z` and parameters `(t_l, t_h, t_s, ms)`
the output name is `"watershed_" ++ pad5(z) ++ "_" ++ fmt(t_l) ++ "_" ++
fmt(t_h) ++ "_" ++ fmt(t_s) ++ "_" ++ fmt(ms) ++ ".tif"`, `z` alone padded,
the fields in the order `z`, `t_low`, `t_high`, merge threshold, `min_size`;
and two names are equal exactly when `z` and `ms` are equal and each threshold
has the same printed text: `z` and `ms` are recovered from the name, a
threshold is recovered as the six significant digits that the stream prints. -/
theorem output_filename_fields (z z' : Nat) (t_l t_h t_s t_l' t_h' t_s' : F32) (ms ms' : Int) :
    output_filename (z : Int) t_l t_h t_s ms =
      "watershed_" ++ pad5 z ++ "_" ++ fmtFloat t_l ++ "_" ++ fmtFloat t_h ++ "_" ++ fmtFloat t_s
        ++ "_" ++ fmtInt ms ++ ".tif" ∧
    (output_filename (z : Int) t_l t_h t_s ms = output_filename (z' : Int) t_l' t_h' t_s' ms' ↔
      z = z' ∧ fmtFloat t_l = fmtFloat t_l' ∧ fmtFloat t_h = fmtFloat t_h' ∧
        fmtFloat t_s = fmtFloat t_s' ∧ ms = ms') := by
  refine ⟨output_filename_eq_spec z t_l t_h t_s ms, ?_, ?_⟩
  · intro h
    rw [output_filename_eq_spec, output_filename_eq_spec] at h
    exact filename_spec_inj h
  · rintro ⟨rfl, h1, h2, h3, rfl⟩
    rw [output_filename_eq_spec, output_filename_eq_spec]
    simp only [filename_spec, h1, h2, h3]

/-- The thresholds `1` and `1 + 2^-23` at work in the statement above: equal
printed texts give equal names. -/
theorem output_filename_fields_witness :
    output_filename ((0 : Nat) : Int) ⟨false, 127, 0⟩ ⟨false, 127, 0⟩ ⟨false, 127, 0⟩ 7 =
      output_filename ((0 : Nat) : Int) ⟨false, 127, 1⟩ ⟨false, 127, 0⟩ ⟨false, 127, 0⟩ 7 :=
  ((output_filename_fields 0 0 ⟨false, 127, 0⟩ ⟨false, 127, 0⟩ ⟨false, 127, 0⟩
    ⟨false, 127, 1⟩ ⟨false, 127, 0⟩ ⟨false, 127, 0⟩ 7 7).2).2
      ⟨rfl, by decide!, rfl, rfl, rfl⟩

/-- Two runs whose `t_l` differ, `1` and `1 + 2^-23`, write to the same name:
the threshold is not recoverable from it. -/
theorem filename_loses_threshold :
    (⟨false, 127, 0⟩ : F32) ≠ ⟨false, 127, 1⟩ ∧
    output_filename 0 ⟨false, 127, 0⟩ ⟨false, 126, 0⟩ ⟨false, 126, 0⟩ 7 =
      output_filename 0 ⟨false, 127, 1⟩ ⟨false, 126, 0⟩ ⟨false, 126, 0⟩ 7 := by
  decide!



/-! ## Runs of the driver -/

theorem Prog.bind_def {α β : Type} (m : Prog α) (f : α → Prog β) : (m >>= f) = Prog.bind m f := rfl

theorem Prog.pure_def {α : Type} (a : α) : (pure a : Prog α) = ([], .ok a) := rfl

theorem Prog.bind_ok {α β : Type} (t : List Event) (a : α) (f : α → Prog β) :
    Prog.bind (t, .ok a) f = (t ++ (f a).1, (f a).2) := rfl

theorem Prog.bind_error {α β : Type} (t : List Event) (s : Stop) (f : α → Prog β) :
    Prog.bind (t, (.error s : Except Stop α)) f = (t, .error s) := rfl

theorem count_fold (es : List DirEntry) (n : Nat) :
    es.foldl (fun n i => if i.regular then n + 1 else n) n
      = n + (es.filter (fun i => i.regular)).length := by
  induction es generalizing n with
  | nil => simp
  | cons e es ih =>
    simp only [List.foldl_cons, List.filter_cons]
    rw [ih]
    cases e.regular <;> simp; omega

theorem files_fold (p : String) (es : List DirEntry) (fs : List Path) :
    es.foldl (fun fs i => if i.regular then fs ++ [(⟨p, i.leaf⟩ : Path)] else fs) fs
      = fs ++ regular_files p es := by
  induction es generalizing fs with
  | nil => simp [regular_files]
  | cons e es ih =>
    simp only [List.foldl_cons]
    rw [ih]
    cases h : e.regular <;> simp [regular_files, List.filter_cons, h]

theorem num_files_eq (W : World) (p : String) (es : List DirEntry) (h : W.entries p = some es) :
    num_files W p = ([.list p], .ok (regular_files p es).length) := by
  simp [num_files, h, Prog.bind_def, Prog.pure_def, Prog.emit, Prog.bind_ok, count_fold, regular_files]

theorem files_eq (W : World) (p : String) (es : List DirEntry) (h : W.entries p = some es) :
    files W p = ([.list p], .ok (regular_files p es)) := by
  simp [files, h, Prog.bind_def, Prog.pure_def, Prog.emit, Prog.bind_ok, files_fold]

theorem main_usage (W : World) (E : Engine) (argv : List String) (h : argv.length < 8) :
    main W E argv = ⟨[.stdout "usage: watershed <aff_x_dir> <aff_y_dir> <aff_z_dir> <t_l> <t_h> <t_s> <ms>\n"], .exit 1⟩ := by
  simp [main, main_body, h, Prog.bind_def, Prog.pure_def, Prog.emit, Prog.bind_ok, Prog.stop, Prog.bind_error]

theorem resize_one_cons {α : Type} [Inhabited α] (a : α) (as : List α) : resize 1 (a :: as) = [a] := by
  simp [resize]

theorem sort_singleton (a : Path) : sort [a] = [a] := by
  simp [sort]

theorem range_one_eq : List.range 1 = [0] := rfl

theorem read_slice_channel_eq (W : World) (aff : AffinityGraph) (z c : Nat) (file : Path)
    (img : Image) (h : W.image file = some img)
    (hfit : img.width = 0 ∨ img.height = 0 ∨ (img.width ≤ aff.size_x ∧ img.height ≤ aff.size_y)) :
    read_slice_channel W aff z c file
      = ([.info file, .importImage file], .ok (aff.assign z c img)) := by
  simp [read_slice_channel, h, hfit, Prog.bind_def, Prog.pure_def, Prog.emit, Prog.bind_ok]

theorem write_slice_eq (W : World) (seg : Segmentation) (z : Nat) (filename : String)
    (hz : z < seg.size_z) (h : W.exportImage filename = true) :
    write_slice W seg z filename = ([.exportImage filename (seg.slice z)], .ok ()) := by
  have hz' : ¬ seg.size_z ≤ z := by omega
  simp [write_slice, h, hz', Prog.bind_def, Prog.pure_def, Prog.emit, Prog.bind_ok]

theorem main_success (W : World) (E : Engine) (argv : List String)
    (t_l t_h t_s msf : F32) (ms : Int) (ex ey ez : List DirEntry)
    (x0 y0 z0 : Path) (xs ys zs : List Path) (ix iy iz : Image) (r : WatershedResult)
    (hargc : 8 ≤ argv.length)
    (h4 : W.lexical_cast_float (arg argv 4) = some t_l)
    (h5 : W.lexical_cast_float (arg argv 5) = some t_h)
    (h6 : W.lexical_cast_float (arg argv 6) = some t_s)
    (h7 : W.lexical_cast_float (arg argv 7) = some msf)
    (hms : msf.toInt32? = some ms)
    (hx : W.entries (arg argv 1) = some ex)
    (hy : W.entries (arg argv 2) = some ey)
    (hz : W.entries (arg argv 3) = some ez)
    (hfx : regular_files (arg argv 1) ex = x0 :: xs)
    (hfy : regular_files (arg argv 2) ey = y0 :: ys)
    (hfz : regular_files (arg argv 3) ez = z0 :: zs)
    (hxy : xs.length = ys.length) (hxz : xs.length = zs.length)
    (hix : W.image x0 = some ix) (hiy : W.image y0 = some iy) (hiz : W.image z0 = some iz)
    (hfy' : iy.fits ix) (hfz' : iz.fits ix)
    (hws : E.simple_watershed (load ix iy iz) t_l t_h = .ok r)
    (hrg : E.get_region_graph (load ix iy iz) r.segmentation (toInt32 r.num_segments) = .ok ())
    (hsz : 0 < r.segmentation.size_z)
    (hexp : W.exportImage (output_filename 0 t_l t_h t_s ms) = true) :
    main W E argv =
      ⟨start_events argv ++ read_events argv x0 y0 z0 ix ++
        [ .simple_watershed (load ix iy iz) t_l t_h,
          .stdout ("found " ++ String.mk (intText (toInt32 r.num_segments)) ++ " segments\n"),
          .get_region_graph (load ix iy iz) r.segmentation (toInt32 r.num_segments),
          .stdout "performing region merging\n",
          .exportImage (output_filename 0 t_l t_h t_s ms) (r.segmentation.slice 0) ],
        .exit 0⟩ := by
  have hlen : ¬ argv.length < 8 := by omega
  have hyz : ys.length = zs.length := by omega
  have hfx'' : ix.width = 0 ∨ ix.height = 0 ∨ (ix.width ≤ ix.width ∧ ix.height ≤ ix.height) :=
    Or.inr (Or.inr ⟨le_refl _, le_refl _⟩)
  have e1 := read_slice_channel_eq W (AffinityGraph.new ix.width ix.height 1 3) 0 0 x0 ix hix hfx''
  have e2 := read_slice_channel_eq W ((AffinityGraph.new ix.width ix.height 1 3).assign 0 0 ix)
    0 1 y0 iy hiy hfy'
  have e3 := read_slice_channel_eq W
    (((AffinityGraph.new ix.width ix.height 1 3).assign 0 0 ix).assign 0 1 iy) 0 2 z0 iz hiz hfz'
  have e4 := write_slice_eq W r.segmentation 0 (output_filename 0 t_l t_h t_s ms) hsz hexp
  have hws' : E.simple_watershed ((((AffinityGraph.new ix.width ix.height 1 3).assign 0 0 ix).assign
    0 1 iy).assign 0 2 iz) t_l t_h = .ok r := hws
  have hrg' : E.get_region_graph ((((AffinityGraph.new ix.width ix.height 1 3).assign 0 0 ix).assign
    0 1 iy).assign 0 2 iz) r.segmentation (toInt32 r.num_segments) = .ok () := hrg
  simp [main, main_body, hlen, Prog.bind_def, Prog.pure_def, Prog.emit, Prog.bind_ok, Prog.stop,
    Prog.bind_error, lexical_cast, float_to_int, h4, h5, h6, h7, hms, num_files_eq _ _ _ hx,
    num_files_eq _ _ _ hy, num_files_eq _ _ _ hz, files_eq _ _ _ hx, files_eq _ _ _ hy,
    files_eq _ _ _ hz, hfx, hfy, hfz, hxy, hxz, hyz, resize_one_cons, sort_singleton, Prog.index,
    hix, range_one_eq, read_slice, e1, e2, e3, e4, hws', hrg', Prog.ofExcept, start_events,
    read_events, load]



/-! ## `main` as a sequence of stages -/

theorem Prog.bind_assoc' {α β γ : Type} (m : Prog α) (f : α → Prog β) (g : β → Prog γ) :
    Prog.bind (Prog.bind m f) g = Prog.bind m (fun a => Prog.bind (f a) g) := by
  obtain ⟨t, r⟩ := m
  cases r with
  | error s => rfl
  | ok a =>
    simp only [Prog.bind_ok]
    obtain ⟨t', r'⟩ := f a
    cases r' with
    | error s => simp [Prog.bind_error]
    | ok b => simp [Prog.bind_ok]

/-- The monad laws hold for `Prog`. -/
theorem Prog.lawful : LawfulMonad Prog := LawfulMonad.mk' Prog
  (by
    intro α x
    obtain ⟨t, r⟩ := x
    cases r <;> simp [Functor.map, Prog.bind])
  (by
    intro α β a f
    show Prog.bind ([], .ok a) f = f a
    simp [Prog.bind_ok])
  (by
    intro α β γ m f g
    exact Prog.bind_assoc' m f g)

theorem Prog.ite_bind {α β : Type} (c : Prop) [Decidable c] (a b : Prog α) (k : α → Prog β) :
    ((if c then a else b) >>= k) = if c then a >>= k else b >>= k := by
  split <;> rfl

theorem Prog.stop_bind {α β : Type} (s : Stop) (k : α → Prog β) :
    ((Prog.stop s : Prog α) >>= k) = Prog.stop s := rfl

theorem main_body_stages (W : World) (E : Engine) (argv : List String) (h : 8 ≤ argv.length) :
    main_body W E argv = (do
      let p ← parse_args W argv
      let aff ← prepare W (arg argv 1) (arg argv 2) (arg argv 3)
      let seg ← segment E aff p.t_l p.t_h
      write_all W seg p) := by
  have hlen : ¬ argv.length < 8 := by omega
  haveI := Prog.lawful
  simp [main_body, parse_args, prepare, segment, write_all, hlen, Prog.ite_bind, Prog.stop_bind]
  try rfl

/-! ## The exit code -/

theorem regular_files_length (p : String) (es : List DirEntry) :
    (regular_files p es).length = (es.filter (fun i => i.regular)).length := by
  simp [regular_files]

theorem parse_args_ok (W : World) (argv : List String) (t_l t_h t_s msf : F32) (ms : Int)
    (h4 : W.lexical_cast_float (arg argv 4) = some t_l)
    (h5 : W.lexical_cast_float (arg argv 5) = some t_h)
    (h6 : W.lexical_cast_float (arg argv 6) = some t_s)
    (h7 : W.lexical_cast_float (arg argv 7) = some msf)
    (hms : msf.toInt32? = some ms) :
    parse_args W argv = ([], .ok ⟨t_l, t_h, t_s, ms⟩) := by
  simp [parse_args, lexical_cast, float_to_int, h4, h5, h6, h7, hms, Prog.bind_def, Prog.pure_def,
    Prog.bind_ok]

theorem prepare_differ_y (W : World) (x y z : String) (ex ey : List DirEntry)
    (hx : W.entries x = some ex) (hy : W.entries y = some ey)
    (hne : (regular_files x ex).length ≠ (regular_files y ey).length) :
    prepare W x y z =
      ([.stdout ("Performing affinity graph watershed on volumes " ++ x ++ ", " ++ y ++ ", " ++ z ++ "\n"),
        .list x, .list y, .stderr "directories contain different number of files\n"],
       .error (.exit 1)) := by
  simp [prepare, Prog.bind_def, Prog.pure_def, Prog.emit, Prog.bind_ok, Prog.stop, Prog.bind_error,
    num_files_eq _ _ _ hx, num_files_eq _ _ _ hy, hne]

theorem prepare_differ_z (W : World) (x y z : String) (ex ey ez : List DirEntry)
    (hx : W.entries x = some ex) (hy : W.entries y = some ey) (hz : W.entries z = some ez)
    (he : (regular_files x ex).length = (regular_files y ey).length)
    (hne : (regular_files x ex).length ≠ (regular_files z ez).length) :
    prepare W x y z =
      ([.stdout ("Performing affinity graph watershed on volumes " ++ x ++ ", " ++ y ++ ", " ++ z ++ "\n"),
        .list x, .list y, .list z, .stderr "directories contain different number of files\n"],
       .error (.exit 1)) := by
  have hne' : (regular_files y ey).length ≠ (regular_files z ez).length := by omega
  simp [prepare, Prog.bind_def, Prog.pure_def, Prog.emit, Prog.bind_ok, Prog.stop, Prog.bind_error,
    num_files_eq _ _ _ hx, num_files_eq _ _ _ hy, num_files_eq _ _ _ hz, he, hne']

theorem prepare_empty (W : World) (x y z : String) (ex ey ez : List DirEntry)
    (hx : W.entries x = some ex) (hy : W.entries y = some ey) (hz : W.entries z = some ez)
    (h0 : (regular_files x ex).length = 0)
    (hy0 : (regular_files y ey).length = 0) (hz0 : (regular_files z ez).length = 0) :
    prepare W x y z =
      ([.stdout ("Performing affinity graph watershed on volumes " ++ x ++ ", " ++ y ++ ", " ++ z ++ "\n"),
        .list x, .list y, .list z, .stderr "directories contain no files\n"],
       .error (.exit 1)) := by
  simp [prepare, Prog.bind_def, Prog.pure_def, Prog.emit, Prog.bind_ok, Prog.stop, Prog.bind_error,
    num_files_eq _ _ _ hx, num_files_eq _ _ _ hy, num_files_eq _ _ _ hz, h0, hy0, hz0]

theorem main_of_prepare_error (W : World) (E : Engine) (argv : List String) (p : Params)
    (t : List Event) (s : Stop) (hargc : 8 ≤ argv.length)
    (hp : parse_args W argv = ([], .ok p))
    (h : prepare W (arg argv 1) (arg argv 2) (arg argv 3) = (t, .error s)) :
    main W E argv = ⟨t, s⟩ := by
  simp [main, main_body_stages W E argv hargc, hp, h, Prog.bind_def, Prog.bind_ok, Prog.bind_error]

theorem main_exit_one_of_counts (W : World) (E : Engine) (argv : List String) (p : Params)
    (ex ey ez : List DirEntry) (hargc : 8 ≤ argv.length)
    (hp : parse_args W argv = ([], .ok p))
    (hx : W.entries (arg argv 1) = some ex)
    (hy : W.entries (arg argv 2) = some ey)
    (hz : W.entries (arg argv 3) = some ez)
    (h : (ex.filter (fun i => i.regular)).length ≠ (ey.filter (fun i => i.regular)).length ∨
      (ex.filter (fun i => i.regular)).length ≠ (ez.filter (fun i => i.regular)).length ∨
      (ex.filter (fun i => i.regular)).length = 0) :
    (main W E argv).outcome = .exit 1 ∧ ∀ e ∈ (main W E argv).trace, e.isWork = false := by
  have lx := regular_files_length (arg argv 1) ex
  have ly := regular_files_length (arg argv 2) ey
  have lz := regular_files_length (arg argv 3) ez
  by_cases hxy : (regular_files (arg argv 1) ex).length = (regular_files (arg argv 2) ey).length
  · by_cases hxz : (regular_files (arg argv 1) ex).length = (regular_files (arg argv 3) ez).length
    · have h0 : (regular_files (arg argv 1) ex).length = 0 := by omega
      rw [main_of_prepare_error W E argv p _ _ hargc hp
        (prepare_empty W _ _ _ ex ey ez hx hy hz h0 (by omega) (by omega))]
      refine ⟨rfl, ?_⟩
      intro e he
      simp only [List.mem_cons, List.mem_singleton, List.not_mem_nil, or_false] at he
      rcases he with rfl | rfl | rfl | rfl | rfl <;> rfl
    · rw [main_of_prepare_error W E argv p _ _ hargc hp
        (prepare_differ_z W _ _ _ ex ey ez hx hy hz hxy hxz)]
      refine ⟨rfl, ?_⟩
      intro e he
      simp only [List.mem_cons, List.mem_singleton, List.not_mem_nil, or_false] at he
      rcases he with rfl | rfl | rfl | rfl | rfl <;> rfl
  · rw [main_of_prepare_error W E argv p _ _ hargc hp
      (prepare_differ_y W _ _ (arg argv 3) ex ey hx hy hxy)]
    refine ⟨rfl, ?_⟩
    intro e he
    simp only [List.mem_cons, List.mem_singleton, List.not_mem_nil, or_false] at he
    rcases he with rfl | rfl | rfl | rfl <;> rfl

theorem regular_files_cons_of_pos (p : String) (es : List DirEntry)
    (h : 1 ≤ (es.filter (fun i => i.regular)).length) :
    ∃ xs, regular_files p es = (regular_files p es).headD default :: xs ∧
      xs.length + 1 = (es.filter (fun i => i.regular)).length := by
  have hl := regular_files_length p es
  cases hr : regular_files p es with
  | nil => rw [hr] at hl; simp at hl; omega
  | cons a as => exact ⟨as, rfl, by rw [hr] at hl; simpa using hl⟩

/-- C1: for every run of `main` with at least seven arguments whose numeric
arguments parse, `nx`, `ny`, `nz` being the numbers of regular files of the
three directories: when `nx != ny` or `nx != nz` or `nx = 0` the exit code is 1
and the run touches no image file and calls no engine function (no affinity
read, no watershed, no slice written); when `nx = ny = nz >= 1` and the reads,
the engine calls and the export succeed, the exit code is 0. -/
theorem main_exit_code (W : World) (E : Engine) (argv : List String)
    (t_l t_h t_s msf : F32) (ms : Int) (ex ey ez : List DirEntry)
    (hargc : 8 ≤ argv.length)
    (h4 : W.lexical_cast_float (arg argv 4) = some t_l)
    (h5 : W.lexical_cast_float (arg argv 5) = some t_h)
    (h6 : W.lexical_cast_float (arg argv 6) = some t_s)
    (h7 : W.lexical_cast_float (arg argv 7) = some msf)
    (hms : msf.toInt32? = some ms)
    (hx : W.entries (arg argv 1) = some ex)
    (hy : W.entries (arg argv 2) = some ey)
    (hz : W.entries (arg argv 3) = some ez) :
    (((ex.filter (fun i => i.regular)).length ≠ (ey.filter (fun i => i.regular)).length ∨
        (ex.filter (fun i => i.regular)).length ≠ (ez.filter (fun i => i.regular)).length ∨
        (ex.filter (fun i => i.regular)).length = 0) →
      (main W E argv).outcome = .exit 1 ∧ ∀ e ∈ (main W E argv).trace, e.isWork = false) ∧
    (((ex.filter (fun i => i.regular)).length = (ey.filter (fun i => i.regular)).length ∧
        (ex.filter (fun i => i.regular)).length = (ez.filter (fun i => i.regular)).length ∧
        1 ≤ (ex.filter (fun i => i.regular)).length) →
      ∀ (ix iy iz : Image) (r : WatershedResult),
        W.image ((regular_files (arg argv 1) ex).headD default) = some ix →
        W.image ((regular_files (arg argv 2) ey).headD default) = some iy →
        W.image ((regular_files (arg argv 3) ez).headD default) = some iz →
        iy.fits ix → iz.fits ix →
        E.simple_watershed (load ix iy iz) t_l t_h = .ok r →
        E.get_region_graph (load ix iy iz) r.segmentation (toInt32 r.num_segments) = .ok () →
        0 < r.segmentation.size_z →
        W.exportImage (output_filename 0 t_l t_h t_s ms) = true →
        (main W E argv).outcome = .exit 0) := by
  have hp := parse_args_ok W argv t_l t_h t_s msf ms h4 h5 h6 h7 hms
  refine ⟨main_exit_one_of_counts W E argv _ ex ey ez hargc hp hx hy hz, ?_⟩
  rintro ⟨hxy, hxz, hpos⟩ ix iy iz r hix hiy hiz hfy hfz hws hrg hsz hexp
  obtain ⟨xs, hfx, hlx⟩ := regular_files_cons_of_pos (arg argv 1) ex hpos
  obtain ⟨ys, hfy', hly⟩ := regular_files_cons_of_pos (arg argv 2) ey (by omega)
  obtain ⟨zs, hfz', hlz⟩ := regular_files_cons_of_pos (arg argv 3) ez (by omega)
  rw [main_success W E argv t_l t_h t_s msf ms ex ey ez _ _ _ xs ys zs ix iy iz r hargc
    h4 h5 h6 h7 hms hx hy hz hfx hfy' hfz' (by omega) (by omega) hix hiy hiz hfy hfz hws hrg hsz hexp]

theorem WatershedResult.eq_ok_get (r : Except Failure WatershedResult)
    (h : WatershedResult.isOk r = true) : r = .ok (WatershedResult.get r) := by
  cases r with
  | ok a => rfl
  | error e => simp [WatershedResult.isOk] at h

/-- Two runs in the concrete world: an empty third directory gives exit code
1, three directories of two files give exit code 0. -/
theorem main_exit_code_witness :
    (main demo_world demo_engine
        ["watershed", "aff_x", "aff_y", "empty", "0.3", "0.8", "0.5", "3"]).outcome = .exit 1 ∧
    (main demo_world demo_engine
        ["watershed", "aff_x", "aff_y", "aff_z", "0.3", "0.8", "0.5", "3"]).outcome = .exit 0 :=
  ⟨((main_exit_code demo_world demo_engine
        ["watershed", "aff_x", "aff_y", "empty", "0.3", "0.8", "0.5", "3"]
        ⟨false, 125, 1677722⟩ ⟨false, 126, 5033165⟩ ⟨false, 126, 0⟩ ⟨false, 128, 4194304⟩ 3
        [⟨"sub", false⟩, ⟨"b.tif", true⟩, ⟨"a.tif", true⟩]
        [⟨"sub", false⟩, ⟨"b.tif", true⟩, ⟨"a.tif", true⟩] []
        (by decide) (by decide!) (by decide!) (by decide!) (by decide!) (by decide!)
        (by decide!) (by decide!) (by decide!)).1 (Or.inr (Or.inl (by decide)))).1,
   (main_exit_code demo_world demo_engine
        ["watershed", "aff_x", "aff_y", "aff_z", "0.3", "0.8", "0.5", "3"]
        ⟨false, 125, 1677722⟩ ⟨false, 126, 5033165⟩ ⟨false, 126, 0⟩ ⟨false, 128, 4194304⟩ 3
        [⟨"sub", false⟩, ⟨"b.tif", true⟩, ⟨"a.tif", true⟩]
        [⟨"sub", false⟩, ⟨"b.tif", true⟩, ⟨"a.tif", true⟩]
        [⟨"sub", false⟩, ⟨"b.tif", true⟩, ⟨"a.tif", true⟩]
        (by decide) (by decide!) (by decide!) (by decide!) (by decide!) (by decide!)
        (by decide!) (by decide!) (by decide!)).2 ⟨by decide, by decide, by decide⟩
      demo_image_x demo_image_y demo_image_z
      (WatershedResult.get (simple_watershed (load demo_image_x demo_image_y demo_image_z)
        ⟨false, 125, 1677722⟩ ⟨false, 126, 5033165⟩))
      rfl rfl rfl
      (Or.inr (Or.inr ⟨Nat.le_refl _, Nat.le_refl _⟩)) (Or.inr (Or.inr ⟨Nat.le_refl _, Nat.le_refl _⟩))
      (WatershedResult.eq_ok_get _ (by decide!)) rfl (by decide!) rfl⟩

/-! ## The stages one by one -/

theorem main_eq_outcomeOf (W : World) (E : Engine) (argv : List String) :
    main W E argv = ⟨(main_body W E argv).1, outcomeOf (main_body W E argv).2⟩ := by
  unfold main outcomeOf
  cases (main_body W E argv).2 <;> rfl

theorem Prog.bind_trace_nil {α β : Type} (m : Prog α) (f : α → Prog β)
    (hm : m.1 = []) (hf : ∀ a, (f a).1 = []) : (Prog.bind m f).1 = [] := by
  obtain ⟨t, r⟩ := m
  cases r with
  | error s => exact hm
  | ok a =>
    simp only [Prog.bind_ok] at *
    rw [hm, hf a]; rfl

theorem lexical_cast_trace (W : World) (s : String) : (lexical_cast W s).1 = [] := by
  unfold lexical_cast
  cases W.lexical_cast_float s <;> rfl

theorem float_to_int_trace (a : F32) : (float_to_int a).1 = [] := by
  unfold float_to_int
  cases a.toInt32? <;> rfl

theorem parse_args_trace (W : World) (argv : List String) : (parse_args W argv).1 = [] := by
  unfold parse_args
  simp only [Prog.bind_def]
  refine Prog.bind_trace_nil _ _ (lexical_cast_trace _ _) (fun _ => ?_)
  refine Prog.bind_trace_nil _ _ (lexical_cast_trace _ _) (fun _ => ?_)
  refine Prog.bind_trace_nil _ _ (lexical_cast_trace _ _) (fun _ => ?_)
  refine Prog.bind_trace_nil _ _ ?_ (fun _ => rfl)
  exact Prog.bind_trace_nil _ _ (lexical_cast_trace _ _) (fun _ => float_to_int_trace _)

theorem segment_error (E : Engine) (aff : AffinityGraph) (t_l t_h : F32) (e : Failure)
    (h : E.simple_watershed aff t_l t_h = .error e) :
    segment E aff t_l t_h =
      ([.stdout "performing simple_watershed\n", .simple_watershed aff t_l t_h],
        .error (.uncaught e)) := by
  simp [segment, h, Prog.bind_def, Prog.pure_def, Prog.emit, Prog.bind_ok, Prog.bind_error,
    Prog.ofExcept]

theorem segment_graph_error (E : Engine) (aff : AffinityGraph) (t_l t_h : F32)
    (r : WatershedResult) (e : Failure)
    (h : E.simple_watershed aff t_l t_h = .ok r)
    (hg : E.get_region_graph aff r.segmentation (toInt32 r.num_segments) = .error e) :
    segment E aff t_l t_h =
      ([.stdout "performing simple_watershed\n", .simple_watershed aff t_l t_h,
        .stdout ("found " ++ String.mk (intText (toInt32 r.num_segments)) ++ " segments\n"),
        .get_region_graph aff r.segmentation (toInt32 r.num_segments)],
        .error (.uncaught e)) := by
  simp [segment, h, hg, Prog.bind_def, Prog.pure_def, Prog.emit, Prog.bind_ok, Prog.bind_error,
    Prog.ofExcept]

theorem segment_ok (E : Engine) (aff : AffinityGraph) (t_l t_h : F32)
    (r : WatershedResult)
    (h : E.simple_watershed aff t_l t_h = .ok r)
    (hg : E.get_region_graph aff r.segmentation (toInt32 r.num_segments) = .ok ()) :
    segment E aff t_l t_h =
      ([.stdout "performing simple_watershed\n", .simple_watershed aff t_l t_h,
        .stdout ("found " ++ String.mk (intText (toInt32 r.num_segments)) ++ " segments\n"),
        .get_region_graph aff r.segmentation (toInt32 r.num_segments),
        .stdout "performing region merging\n"],
        .ok r.segmentation) := by
  simp [segment, h, hg, Prog.bind_def, Prog.pure_def, Prog.emit, Prog.bind_ok, Prog.bind_error,
    Prog.ofExcept]

theorem write_all_undefined (W : World) (seg : Segmentation) (p : Params)
    (h : seg.size_z = 0) : write_all W seg p = ([], .error .undefined) := by
  simp [write_all, range_one_eq, write_slice, h, Prog.bind_def, Prog.pure_def, Prog.emit,
    Prog.bind_ok, Prog.bind_error, Prog.stop]

theorem write_all_eq (W : World) (seg : Segmentation) (p : Params)
    (h : 0 < seg.size_z) :
    write_all W seg p =
      ([.exportImage (output_filename 0 p.t_l p.t_h p.t_s p.ms) (seg.slice 0)],
        if W.exportImage (output_filename 0 p.t_l p.t_h p.t_s p.ms) = true then .ok ()
        else .error (.uncaught .image_error)) := by
  have h' : ¬ seg.size_z = 0 := by omega
  cases hw : W.exportImage (output_filename 0 p.t_l p.t_h p.t_s p.ms) <;>
    simp [write_all, range_one_eq, write_slice, h', hw, Prog.bind_def, Prog.pure_def, Prog.emit,
      Prog.bind_ok, Prog.bind_error, Prog.stop]

theorem main_of_stages (W : World) (E : Engine) (argv : List String) (p : Params)
    (tp ts : List Event) (aff : AffinityGraph) (seg : Segmentation)
    (hargc : 8 ≤ argv.length)
    (hp : parse_args W argv = ([], .ok p))
    (h1 : prepare W (arg argv 1) (arg argv 2) (arg argv 3) = (tp, .ok aff))
    (h2 : segment E aff p.t_l p.t_h = (ts, .ok seg)) :
    main W E argv = ⟨tp ++ (ts ++ (write_all W seg p).1), outcomeOf (write_all W seg p).2⟩ := by
  rw [main_eq_outcomeOf, main_body_stages W E argv hargc]
  simp [hp, h1, h2, Prog.bind_def, Prog.bind_ok, Prog.bind_error]

theorem main_of_segment_error (W : World) (E : Engine) (argv : List String) (p : Params)
    (tp ts : List Event) (aff : AffinityGraph) (s : Stop)
    (hargc : 8 ≤ argv.length)
    (hp : parse_args W argv = ([], .ok p))
    (h1 : prepare W (arg argv 1) (arg argv 2) (arg argv 3) = (tp, .ok aff))
    (h2 : segment E aff p.t_l p.t_h = (ts, .error s)) :
    main W E argv = ⟨tp ++ ts, s⟩ := by
  rw [main_eq_outcomeOf, main_body_stages W E argv hargc]
  simp [hp, h1, h2, Prog.bind_def, Prog.bind_ok, Prog.bind_error, outcomeOf]

theorem main_of_parse_error (W : World) (E : Engine) (argv : List String) (s : Stop)
    (hargc : 8 ≤ argv.length)
    (hp : parse_args W argv = ([], .error s)) :
    main W E argv = ⟨[], s⟩ := by
  rw [main_eq_outcomeOf, main_body_stages W E argv hargc]
  simp [hp, Prog.bind_def, Prog.bind_ok, Prog.bind_error, outcomeOf]

/-! ## Events before the engine is called -/

theorem Prog.all_bind {α β : Type} (P : Event → Prop) (m : Prog α) (f : α → Prog β)
    (hm : ∀ e ∈ m.1, P e) (hf : ∀ a, ∀ e ∈ (f a).1, P e) : ∀ e ∈ (m >>= f).1, P e := by
  obtain ⟨t, r⟩ := m
  cases r with
  | error s => exact hm
  | ok a =>
    intro e he
    simp only [Prog.bind_def, Prog.bind_ok, List.mem_append] at he
    rcases he with h | h
    · exact hm e h
    · exact hf a e h

theorem Prog.all_pure {α : Type} (P : Event → Prop) (a : α) : ∀ e ∈ (pure a : Prog α).1, P e := by
  intro e he; cases he

theorem Prog.all_stop {α : Type} (P : Event → Prop) (s : Stop) :
    ∀ e ∈ (Prog.stop s : Prog α).1, P e := by
  intro e he; cases he

theorem Prog.all_emit (P : Event → Prop) (e0 : Event) (h : P e0) :
    ∀ e ∈ (Prog.emit e0).1, P e := by
  intro e he
  simp only [Prog.emit, List.mem_singleton] at he
  rw [he]; exact h

theorem Prog.all_index {α : Type} (P : Event → Prop) (xs : List α) (i : Nat) :
    ∀ e ∈ (Prog.index xs i).1, P e := by
  intro e he
  unfold Prog.index at he
  cases h : xs[i]? <;> simp [h] at he

theorem num_files_input (W : World) (p : String) :
    ∀ e ∈ (num_files W p).1, e.isInput = true := by
  unfold num_files
  refine Prog.all_bind _ _ _ (Prog.all_emit _ _ rfl) (fun _ => ?_)
  cases W.entries p
  · exact Prog.all_stop _ _
  · exact Prog.all_pure _ _

theorem files_input (W : World) (p : String) :
    ∀ e ∈ (files W p).1, e.isInput = true := by
  unfold files
  refine Prog.all_bind _ _ _ (Prog.all_emit _ _ rfl) (fun _ => ?_)
  cases W.entries p
  · exact Prog.all_stop _ _
  · exact Prog.all_pure _ _

theorem read_slice_channel_input (W : World) (aff : AffinityGraph) (z c : Nat) (file : Path) :
    ∀ e ∈ (read_slice_channel W aff z c file).1, e.isInput = true := by
  unfold read_slice_channel
  refine Prog.all_bind _ _ _ (Prog.all_emit _ _ rfl) (fun _ => ?_)
  cases W.image file with
  | none => exact Prog.all_stop _ _
  | some img =>
    refine Prog.all_bind _ _ _ (Prog.all_emit _ _ rfl) (fun _ => ?_)
    split
    · exact Prog.all_pure _ _
    · exact Prog.all_stop _ _

theorem read_slice_input (W : World) (aff : AffinityGraph) (z : Nat) (fx fy fz : Path) :
    ∀ e ∈ (read_slice W aff z fx fy fz).1, e.isInput = true := by
  unfold read_slice
  refine Prog.all_bind _ _ _ (read_slice_channel_input _ _ _ _ _) (fun _ => ?_)
  refine Prog.all_bind _ _ _ (read_slice_channel_input _ _ _ _ _) (fun _ => ?_)
  exact read_slice_channel_input _ _ _ _ _

set_option maxHeartbeats 1000000 in
theorem prepare_input (W : World) (x y z : String) :
    ∀ e ∈ (prepare W x y z).1, e.isInput = true := by
  unfold prepare
  dsimp only
  repeat' first
    | refine Prog.all_bind _ _ _ ?_ (fun _ => ?_)
    | exact Prog.all_emit _ _ rfl
    | exact Prog.all_stop _ _
    | exact Prog.all_pure _ _
    | exact Prog.all_index _ _ _
    | exact read_slice_input _ _ _ _ _ _
    | split

theorem exports_of_input (t : List Event) (h : ∀ e ∈ t, e.isInput = true) : exports t = [] := by
  induction t with
  | nil => rfl
  | cons e t ih =>
    have he := h e (List.mem_cons_self _ _)
    have ht := ih (fun x hx => h x (List.mem_cons_of_mem _ hx))
    cases e <;> simp [Event.isInput] at he <;> simpa [exports] using ht

theorem watershed_calls_of_input (t : List Event) (h : ∀ e ∈ t, e.isInput = true) :
    watershed_calls t = [] := by
  induction t with
  | nil => rfl
  | cons e t ih =>
    have he := h e (List.mem_cons_self _ _)
    have ht := ih (fun x hx => h x (List.mem_cons_of_mem _ hx))
    cases e <;> simp [Event.isInput] at he <;> simpa [watershed_calls] using ht

theorem eraseName_of_input (t : List Event) (h : ∀ e ∈ t, e.isInput = true) :
    t.map Event.eraseName = t := by
  induction t with
  | nil => rfl
  | cons e t ih =>
    have he := h e (List.mem_cons_self _ _)
    have ht := ih (fun x hx => h x (List.mem_cons_of_mem _ hx))
    cases e <;> simp [Event.isInput] at he <;> simp [Event.eraseName, ht]

theorem exports_append (a b : List Event) : exports (a ++ b) = exports a ++ exports b := by
  simp [exports, List.filterMap_append]

theorem watershed_calls_append (a b : List Event) :
    watershed_calls (a ++ b) = watershed_calls a ++ watershed_calls b := by
  simp [watershed_calls, List.filterMap_append]

/-! ## What the driver writes -/

theorem parse_args_inv (W : World) (argv : List String) (p : Params)
    (h : parse_args W argv = ([], .ok p)) :
    W.lexical_cast_float (arg argv 4) = some p.t_l ∧
    W.lexical_cast_float (arg argv 5) = some p.t_h ∧
    W.lexical_cast_float (arg argv 6) = some p.t_s ∧
    ∃ msf, W.lexical_cast_float (arg argv 7) = some msf ∧ msf.toInt32? = some p.ms := by
  unfold parse_args lexical_cast float_to_int at h
  simp only [Prog.bind_def, Prog.pure_def] at h
  cases h4 : W.lexical_cast_float (arg argv 4) with
  | none => simp only [h4, Prog.stop, Prog.bind_error, Prog.bind_ok] at h; cases h
  | some a4 =>
  cases h5 : W.lexical_cast_float (arg argv 5) with
  | none => simp only [h4, h5, Prog.stop, Prog.bind_error, Prog.bind_ok] at h; cases h
  | some a5 =>
  cases h6 : W.lexical_cast_float (arg argv 6) with
  | none => simp only [h4, h5, h6, Prog.stop, Prog.bind_error, Prog.bind_ok] at h; cases h
  | some a6 =>
  cases h7 : W.lexical_cast_float (arg argv 7) with
  | none => simp only [h4, h5, h6, h7, Prog.stop, Prog.bind_error, Prog.bind_ok] at h; cases h
  | some a7 =>
  cases hms : a7.toInt32? with
  | none => simp only [h4, h5, h6, h7, hms, Prog.stop, Prog.bind_error, Prog.bind_ok] at h; cases h
  | some i =>
    simp only [h4, h5, h6, h7, hms, Prog.stop, Prog.bind_error, Prog.bind_ok] at h
    cases h
    exact ⟨rfl, rfl, rfl, a7, rfl, hms⟩

/-- The possible shapes of a run with at least seven arguments. -/
theorem main_cases (W : World) (E : Engine) (argv : List String) (hargc : 8 ≤ argv.length) :
    (∃ s, main W E argv = ⟨[], s⟩) ∨
    (∃ p tp, parse_args W argv = ([], .ok p) ∧ (∀ e ∈ tp, e.isInput = true) ∧
      ((∃ s, prepare W (arg argv 1) (arg argv 2) (arg argv 3) = (tp, .error s) ∧
          main W E argv = ⟨tp, s⟩) ∨
       (∃ aff e, prepare W (arg argv 1) (arg argv 2) (arg argv 3) = (tp, .ok aff) ∧
          E.simple_watershed aff p.t_l p.t_h = .error e ∧
          main W E argv = ⟨tp ++ [.stdout "performing simple_watershed\n",
            .simple_watershed aff p.t_l p.t_h], .uncaught e⟩) ∨
       (∃ aff r e, prepare W (arg argv 1) (arg argv 2) (arg argv 3) = (tp, .ok aff) ∧
          E.simple_watershed aff p.t_l p.t_h = .ok r ∧
          main W E argv = ⟨tp ++ [.stdout "performing simple_watershed\n",
            .simple_watershed aff p.t_l p.t_h,
            .stdout ("found " ++ String.mk (intText (toInt32 r.num_segments)) ++ " segments\n"),
            .get_region_graph aff r.segmentation (toInt32 r.num_segments)], .uncaught e⟩) ∨
       (∃ aff r, prepare W (arg argv 1) (arg argv 2) (arg argv 3) = (tp, .ok aff) ∧
          E.simple_watershed aff p.t_l p.t_h = .ok r ∧
          E.get_region_graph aff r.segmentation (toInt32 r.num_segments) = .ok () ∧
          main W E argv = ⟨tp ++ ([.stdout "performing simple_watershed\n",
            .simple_watershed aff p.t_l p.t_h,
            .stdout ("found " ++ String.mk (intText (toInt32 r.num_segments)) ++ " segments\n"),
            .get_region_graph aff r.segmentation (toInt32 r.num_segments),
            .stdout "performing region merging\n"] ++ (write_all W r.segmentation p).1),
            outcomeOf (write_all W r.segmentation p).2⟩))) := by
  have hpt := parse_args_trace W argv
  rcases hp : parse_args W argv with ⟨t0, rp⟩
  rw [hp] at hpt
  simp only at hpt
  subst hpt
  cases rp with
  | error s => exact Or.inl ⟨s, main_of_parse_error W E argv s hargc hp⟩
  | ok p =>
    right
    have hin := prepare_input W (arg argv 1) (arg argv 2) (arg argv 3)
    rcases h1 : prepare W (arg argv 1) (arg argv 2) (arg argv 3) with ⟨tp, ra⟩
    rw [h1] at hin
    refine ⟨p, tp, rfl, hin, ?_⟩
    cases ra with
    | error s => exact Or.inl ⟨s, rfl, main_of_prepare_error W E argv p tp s hargc hp h1⟩
    | ok aff =>
      right
      cases hws : E.simple_watershed aff p.t_l p.t_h with
      | error e =>
        exact Or.inl ⟨aff, e, rfl, hws, main_of_segment_error W E argv p tp _ aff _ hargc hp h1
          (segment_error E aff _ _ e hws)⟩
      | ok r =>
        right
        cases hrg : E.get_region_graph aff r.segmentation (toInt32 r.num_segments) with
        | error e =>
          exact Or.inl ⟨aff, r, e, rfl, hws, main_of_segment_error W E argv p tp _ aff _ hargc hp h1
            (segment_graph_error E aff _ _ r e hws hrg)⟩
        | ok u =>
          exact Or.inr ⟨aff, r, rfl, hws, hrg, main_of_stages W E argv p tp _ aff _ hargc hp h1
            (segment_ok E aff _ _ r hws hrg)⟩

theorem exports_write_all (W : World) (seg : Segmentation) (p : Params) :
    exports (write_all W seg p).1 =
      if seg.size_z = 0 then []
      else [(output_filename 0 p.t_l p.t_h p.t_s p.ms, seg.slice 0)] := by
  by_cases h : seg.size_z = 0
  · rw [write_all_undefined W seg p h, if_pos h]; rfl
  · rw [write_all_eq W seg p (by omega), if_neg h]; rfl

theorem eraseName_write_all (W : World) (seg : Segmentation) (p p' : Params) :
    (write_all W seg p).1.map Event.eraseName = (write_all W seg p').1.map Event.eraseName := by
  by_cases h : seg.size_z = 0
  · rw [write_all_undefined W seg p h, write_all_undefined W seg p' h]
  · rw [write_all_eq W seg p (by omega), write_all_eq W seg p' (by omega)]; rfl

theorem F32.binade_eq (s e : Nat) (fuel : Nat) (h1 : 1 ≤ e) (h2 : e ≤ fuel)
    (hlo : 2 ^ (22 + e) ≤ s) (hhi : s < 2 ^ (23 + e)) : F32.binade s fuel = e := by
  induction fuel with
  | zero => omega
  | succ f ih =>
    unfold F32.binade
    by_cases hc : 2 ^ (22 + (f + 1)) ≤ s
    · rw [if_pos hc]
      have hlt : 2 ^ (22 + (f + 1)) < 2 ^ (23 + e) := Nat.lt_of_le_of_lt hc hhi
      have := (Nat.pow_lt_pow_iff_right (a := 2) (by decide)).1 hlt
      omega
    · rw [if_neg hc]
      have hlt : 2 ^ (22 + e) < 2 ^ (22 + (f + 1)) := Nat.lt_of_le_of_lt hlo (by omega)
      have := (Nat.pow_lt_pow_iff_right (a := 2) (by decide)).1 hlt
      exact ih (by omega)

theorem F32.roundHalfEven_mul (a b : Nat) (hb : 0 < b) : F32.roundHalfEven (a * b) b = a := by
  unfold F32.roundHalfEven
  simp only [Nat.mul_mod_left, Nat.mul_zero]
  rw [if_pos hb, Nat.mul_div_cancel _ hb]

/-- A number of at most 24 bits is converted to `float` without rounding. -/
theorem F32.ofNat_exact_of_bits (n L : Nat) (hL : L ≤ 23) (h1 : 2 ^ L ≤ n)
    (h2 : n < 2 ^ (L + 1)) : (F32.ofNat n).holdsInt n := by
  have hpow : (2 : Nat) ^ 149 = 2 ^ (23 - L) * 2 ^ (126 + L) := by
    rw [← Nat.pow_add]; congr 1; omega
  have hs : n * 2 ^ 149 = (n * 2 ^ (23 - L)) * 2 ^ (126 + L) := by
    rw [hpow, Nat.mul_assoc]
  have hlo : 2 ^ (22 + (127 + L)) ≤ n * 2 ^ 149 := by
    have : (2 : Nat) ^ (22 + (127 + L)) = 2 ^ L * 2 ^ 149 := by
      rw [← Nat.pow_add]; congr 1; omega
    rw [this]; exact Nat.mul_le_mul_right _ h1
  have hhi : n * 2 ^ 149 < 2 ^ (23 + (127 + L)) := by
    have : (2 : Nat) ^ (23 + (127 + L)) = 2 ^ (L + 1) * 2 ^ 149 := by
      rw [← Nat.pow_add]; congr 1; omega
    rw [this]; exact Nat.mul_lt_mul_of_pos_right h2 (by positivity)
  have hb : F32.binade (n * 2 ^ 149 / 1) 254 = 127 + L := by
    rw [Nat.div_one]
    exact F32.binade_eq _ _ _ (by omega) (by omega) hlo hhi
  have hm : F32.roundHalfEven (n * 2 ^ 149) (1 * 2 ^ (127 + L - 1)) = n * 2 ^ (23 - L) := by
    have : 127 + L - 1 = 126 + L := by omega
    rw [this, Nat.one_mul, hs]
    exact F32.roundHalfEven_mul _ _ (by positivity)
  have hmlo : 8388608 ≤ n * 2 ^ (23 - L) := by
    have : (8388608 : Nat) = 2 ^ L * 2 ^ (23 - L) := by
      rw [← Nat.pow_add]
      have : L + (23 - L) = 23 := by omega
      rw [this]
    rw [this]; exact Nat.mul_le_mul_right _ h1
  have hmhi : n * 2 ^ (23 - L) < 16777216 := by
    have : (16777216 : Nat) = 2 ^ (L + 1) * 2 ^ (23 - L) := by
      rw [← Nat.pow_add]
      have : L + 1 + (23 - L) = 24 := by omega
      rw [this]
    rw [this]; exact Nat.mul_lt_mul_of_pos_right h2 (by positivity)
  have hval : F32.ofNat n =
      ⟨false, Fin.ofNat (max (127 + L) 1), Fin.ofNat (n * 2 ^ (23 - L) - 8388608)⟩ := by
    unfold F32.ofNat F32.ofRatio
    simp only [hb, hm]
    rw [if_neg (by omega), if_pos hmhi]
  have he : ((Fin.ofNat (max (127 + L) 1) : Fin 256)).val = 127 + L := by
    show max (127 + L) 1 % 256 = 127 + L
    have : max (127 + L) 1 = 127 + L := by omega
    rw [this]; omega
  have hf : ((Fin.ofNat (n * 2 ^ (23 - L) - 8388608) : Fin 8388608)).val
      = n * 2 ^ (23 - L) - 8388608 := by
    show (n * 2 ^ (23 - L) - 8388608) % 8388608 = n * 2 ^ (23 - L) - 8388608
    exact Nat.mod_eq_of_lt (by omega)
  have hmag : (F32.ofNat n).mag = n * 2 ^ 149 := by
    rw [hval]
    unfold F32.mag
    simp only [he, hf]
    rw [if_neg (by omega)]
    have e1 : 8388608 + (n * 2 ^ (23 - L) - 8388608) = n * 2 ^ (23 - L) := by omega
    have e2 : 127 + L - 1 = 126 + L := by omega
    rw [e1, e2, hs]
  constructor
  · rw [hval]
    simp only [F32.isFinite, he]
    simp; omega
  · unfold F32.key
    rw [hmag]
    rw [hval]
    simp

/-- Every label up to `2^24` is converted to `float` without rounding. -/
theorem F32.ofNat_exact (n : Nat) (h : n ≤ 16777216) : (F32.ofNat n).holdsInt n := by
  by_cases h0 : n = 0
  · subst h0; exact ⟨by decide!, by decide!⟩
  · by_cases htop : n = 16777216
    · subst htop; exact ⟨by decide!, by decide!⟩
    · have hlog1 := Nat.pow_log_le_self 2 h0
      have hlog2 := Nat.lt_pow_succ_log_self (b := 2) (by decide) n
      have hL : Nat.log 2 n ≤ 23 := by
        have : 2 ^ Nat.log 2 n < 2 ^ 24 := by
          have : n < 2 ^ 24 := by norm_num; omega
          exact Nat.lt_of_le_of_lt hlog1 this
        have := (Nat.pow_lt_pow_iff_right (a := 2) (by decide)).1 this
        omega
      exact F32.ofNat_exact_of_bits n (Nat.log 2 n) hL hlog1 hlog2

/-- C3 (amended): the region-merge stage is not invoked.  For every input,
each slice handed to the export has the width and the height of the
segmentation that `simple_watershed` returned for the graph and the
thresholds `t_l`, `t_h` of this run, and its pixel at `(x, y)` is the label of
voxel `(x, y, 0)` of that segmentation converted to `float` (lines 79 to 83):
the very number for a label up to `2^24`, the nearest `float` above; and two
runs on the same directories with the same `t_l` and `t_h`, whatever their
`t_s` and `ms`, produce the same events up to the name of the exported file,
in particular the same label data. -/
theorem merge_stage_not_invoked (W : World) (E : Engine) (argv : List String) :
    (∀ fn img, (fn, img) ∈ exports (main W E argv).trace →
      ∃ aff t_l t_h r, (aff, t_l, t_h) ∈ watershed_calls (main W E argv).trace ∧
        W.lexical_cast_float (arg argv 4) = some t_l ∧
        W.lexical_cast_float (arg argv 5) = some t_h ∧
        E.simple_watershed aff t_l t_h = .ok r ∧
        img.width = r.segmentation.size_x ∧ img.height = r.segmentation.size_y ∧
        ∀ x y, x < r.segmentation.size_x → y < r.segmentation.size_y →
          img.data x y = F32.ofNat (r.segmentation.label x y 0) ∧
          (r.segmentation.label x y 0 ≤ 16777216 →
            (img.data x y).holdsInt (r.segmentation.label x y 0))) ∧
    (∀ (argv' : List String) (t_l t_h t_s t_s' msf msf' : F32) (ms ms' : Int),
      8 ≤ argv.length → 8 ≤ argv'.length →
      arg argv 1 = arg argv' 1 → arg argv 2 = arg argv' 2 → arg argv 3 = arg argv' 3 →
      W.lexical_cast_float (arg argv 4) = some t_l →
      W.lexical_cast_float (arg argv' 4) = some t_l →
      W.lexical_cast_float (arg argv 5) = some t_h →
      W.lexical_cast_float (arg argv' 5) = some t_h →
      W.lexical_cast_float (arg argv 6) = some t_s →
      W.lexical_cast_float (arg argv' 6) = some t_s' →
      W.lexical_cast_float (arg argv 7) = some msf → msf.toInt32? = some ms →
      W.lexical_cast_float (arg argv' 7) = some msf' → msf'.toInt32? = some ms' →
      (main W E argv).trace.map Event.eraseName = (main W E argv').trace.map Event.eraseName ∧
      (exports (main W E argv).trace).map Prod.snd
        = (exports (main W E argv').trace).map Prod.snd) := by
  constructor
  · intro fn img hmem
    by_cases hargc : 8 ≤ argv.length
    · rcases main_cases W E argv hargc with ⟨s, hm⟩ | ⟨p, tp, hp, hin, hc⟩
      · rw [hm] at hmem; simp [exports] at hmem
      · have hex := exports_of_input tp hin
        obtain ⟨h4, h5, -, -⟩ := parse_args_inv W argv p hp
        rcases hc with ⟨s, -, hm⟩ | ⟨aff, e, -, -, hm⟩ | ⟨aff, r, e, -, -, hm⟩ | ⟨aff, r, h1, hws, hrg, hm⟩
        · rw [hm] at hmem; simp [hex] at hmem
        · rw [hm] at hmem; simp [exports_append, hex] at hmem; simp [exports] at hmem
        · rw [hm] at hmem; simp [exports_append, hex] at hmem; simp [exports] at hmem
        · rw [hm] at hmem ⊢
          refine ⟨aff, p.t_l, p.t_h, r, ?_, h4, h5, hws, ?_⟩
          · simp [watershed_calls_append, watershed_calls]
          suffices himg : img = r.segmentation.slice 0 by
            subst himg
            refine ⟨rfl, rfl, fun x y hx hy => ?_⟩
            have hpix : (r.segmentation.slice 0).data x y
                = F32.ofNat (r.segmentation.label x y 0) := by
              simp only [Segmentation.slice]
              rw [if_pos ⟨hx, hy⟩]
            rw [hpix]
            exact ⟨rfl, fun hle => F32.ofNat_exact _ hle⟩
          · simp only [exports_append, hex, List.nil_append, exports_write_all] at hmem
            have e0 : exports [Event.stdout "performing simple_watershed\n",
                Event.simple_watershed aff p.t_l p.t_h,
                Event.stdout ("found " ++ String.mk (intText (toInt32 r.num_segments)) ++ " segments\n"),
                Event.get_region_graph aff r.segmentation (toInt32 r.num_segments),
                Event.stdout "performing region merging\n"] = [] := rfl
            rw [e0] at hmem
            split at hmem
            · simp at hmem
            · simp only [List.nil_append, List.mem_singleton, Prod.mk.injEq] at hmem
              exact hmem.2
    · rw [main_usage W E argv (by omega)] at hmem
      simp [exports] at hmem
  · intro argv' t_l t_h t_s t_s' msf msf' ms ms' hargc hargc' e1 e2 e3 h4 h4' h5 h5' h6 h6' h7 hms
      h7' hms'
    have hp := parse_args_ok W argv t_l t_h t_s msf ms h4 h5 h6 h7 hms
    have hp' := parse_args_ok W argv' t_l t_h t_s' msf' ms' h4' h5' h6' h7' hms'
    have hin := prepare_input W (arg argv 1) (arg argv 2) (arg argv 3)
    rcases h1 : prepare W (arg argv 1) (arg argv 2) (arg argv 3) with ⟨tp, ra⟩
    have h1' : prepare W (arg argv' 1) (arg argv' 2) (arg argv' 3) = (tp, ra) := by
      rw [← e1, ← e2, ← e3]; exact h1
    cases ra with
    | error s =>
      rw [main_of_prepare_error W E argv _ tp s hargc hp h1,
        main_of_prepare_error W E argv' _ tp s hargc' hp' h1']
      exact ⟨rfl, rfl⟩
    | ok aff =>
      rcases h2 : segment E aff t_l t_h with ⟨ts, rs⟩
      cases rs with
      | error s =>
        rw [main_of_segment_error W E argv _ tp ts aff s hargc hp h1 h2,
          main_of_segment_error W E argv' _ tp ts aff s hargc' hp' h1' h2]
        exact ⟨rfl, rfl⟩
      | ok seg =>
        rw [main_of_stages W E argv _ tp ts aff seg hargc hp h1 h2,
          main_of_stages W E argv' _ tp ts aff seg hargc' hp' h1' h2]
        constructor
        · simp only [List.map_append]
          rw [eraseName_write_all W seg _ ⟨t_l, t_h, t_s', ms'⟩]
        · simp only [exports_append, exports_write_all, List.map_append]
          split <;> rfl

/-- Two runs in the concrete world that differ in `t_s` and `ms` only. -/
theorem merge_stage_not_invoked_witness :
    (exports (main demo_world demo_engine
        ["watershed", "aff_x", "aff_y", "aff_z", "0.3", "0.8", "0.5", "3"]).trace).map Prod.snd =
    (exports (main demo_world demo_engine
        ["watershed", "aff_x", "aff_y", "aff_z", "0.3", "0.8", "0.25", "7"]).trace).map Prod.snd :=
  ((merge_stage_not_invoked demo_world demo_engine
      ["watershed", "aff_x", "aff_y", "aff_z", "0.3", "0.8", "0.5", "3"]).2
      ["watershed", "aff_x", "aff_y", "aff_z", "0.3", "0.8", "0.25", "7"]
      ⟨false, 125, 1677722⟩ ⟨false, 126, 5033165⟩ ⟨false, 126, 0⟩ ⟨false, 125, 0⟩
      ⟨false, 128, 4194304⟩ ⟨false, 129, 6291456⟩ 3 7
      (by decide) (by decide) rfl rfl rfl (by decide!) (by decide!) (by decide!) (by decide!)
      (by decide!) (by decide!) (by decide!) (by decide!) (by decide!) (by decide!)).2

/-- C4: `size_z` is forced to 1.  For every run in which the three directories
each hold the same number `n >= 1` of regular files (and whose reads, engine
calls and export succeed), `simple_watershed` is called once, on a graph of
extents `(size_x, size_y, 1, 3)`; exactly one file per axis directory is
imported, the first of its listing; and exactly one slice, `z = 0`, is
exported, whatever `n` is. -/
theorem single_section (W : World) (E : Engine) (argv : List String)
    (t_l t_h t_s msf : F32) (ms : Int) (ex ey ez : List DirEntry) (n : Nat)
    (ix iy iz : Image) (r : WatershedResult)
    (hargc : 8 ≤ argv.length)
    (h4 : W.lexical_cast_float (arg argv 4) = some t_l)
    (h5 : W.lexical_cast_float (arg argv 5) = some t_h)
    (h6 : W.lexical_cast_float (arg argv 6) = some t_s)
    (h7 : W.lexical_cast_float (arg argv 7) = some msf)
    (hms : msf.toInt32? = some ms)
    (hx : W.entries (arg argv 1) = some ex)
    (hy : W.entries (arg argv 2) = some ey)
    (hz : W.entries (arg argv 3) = some ez)
    (hnx : (ex.filter (fun i => i.regular)).length = n)
    (hny : (ey.filter (fun i => i.regular)).length = n)
    (hnz : (ez.filter (fun i => i.regular)).length = n)
    (hn : 1 ≤ n)
    (hix : W.image ((regular_files (arg argv 1) ex).headD default) = some ix)
    (hiy : W.image ((regular_files (arg argv 2) ey).headD default) = some iy)
    (hiz : W.image ((regular_files (arg argv 3) ez).headD default) = some iz)
    (hfy : iy.fits ix) (hfz : iz.fits ix)
    (hws : E.simple_watershed (load ix iy iz) t_l t_h = .ok r)
    (hrg : E.get_region_graph (load ix iy iz) r.segmentation (toInt32 r.num_segments) = .ok ())
    (hsz : 0 < r.segmentation.size_z)
    (hexp : W.exportImage (output_filename 0 t_l t_h t_s ms) = true) :
    watershed_calls (main W E argv).trace = [(load ix iy iz, t_l, t_h)] ∧
    ((load ix iy iz).size_x, (load ix iy iz).size_y, (load ix iy iz).size_z,
      (load ix iy iz).size_c) = (ix.width, ix.height, 1, 3) ∧
    imports (main W E argv).trace =
      [(regular_files (arg argv 1) ex).headD default,
       (regular_files (arg argv 2) ey).headD default,
       (regular_files (arg argv 3) ez).headD default] ∧
    exports (main W E argv).trace =
      [(output_filename ((0 : Nat) : Int) t_l t_h t_s ms, r.segmentation.slice 0)] := by
  obtain ⟨xs, hfx, hlx⟩ := regular_files_cons_of_pos (arg argv 1) ex (by omega)
  obtain ⟨ys, hfy', hly⟩ := regular_files_cons_of_pos (arg argv 2) ey (by omega)
  obtain ⟨zs, hfz', hlz⟩ := regular_files_cons_of_pos (arg argv 3) ez (by omega)
  rw [main_success W E argv t_l t_h t_s msf ms ex ey ez _ _ _ xs ys zs ix iy iz r hargc
    h4 h5 h6 h7 hms hx hy hz hfx hfy' hfz' (by omega) (by omega) hix hiy hiz hfy hfz hws hrg hsz hexp]
  exact ⟨rfl, rfl, rfl, rfl⟩

/-- The concrete world holds two files per directory; one slice is written. -/
theorem single_section_witness :
    exports (main demo_world demo_engine
        ["watershed", "aff_x", "aff_y", "aff_z", "0.3", "0.8", "0.5", "3"]).trace =
      [(output_filename ((0 : Nat) : Int) ⟨false, 125, 1677722⟩ ⟨false, 126, 5033165⟩ ⟨false, 126, 0⟩ 3,
        (WatershedResult.get (simple_watershed (load demo_image_x demo_image_y demo_image_z)
          ⟨false, 125, 1677722⟩ ⟨false, 126, 5033165⟩)).segmentation.slice 0)] :=
  (single_section demo_world demo_engine
      ["watershed", "aff_x", "aff_y", "aff_z", "0.3", "0.8", "0.5", "3"]
      ⟨false, 125, 1677722⟩ ⟨false, 126, 5033165⟩ ⟨false, 126, 0⟩ ⟨false, 128, 4194304⟩ 3
      [⟨"sub", false⟩, ⟨"b.tif", true⟩, ⟨"a.tif", true⟩]
      [⟨"sub", false⟩, ⟨"b.tif", true⟩, ⟨"a.tif", true⟩]
      [⟨"sub", false⟩, ⟨"b.tif", true⟩, ⟨"a.tif", true⟩] 2
      demo_image_x demo_image_y demo_image_z
      (WatershedResult.get (simple_watershed (load demo_image_x demo_image_y demo_image_z)
        ⟨false, 125, 1677722⟩ ⟨false, 126, 5033165⟩))
      (by decide) (by decide!) (by decide!) (by decide!) (by decide!) (by decide!)
      (by decide!) (by decide!) (by decide!) (by decide) (by decide) (by decide) (by decide)
      rfl rfl rfl
      (Or.inr (Or.inr ⟨Nat.le_refl _, Nat.le_refl _⟩)) (Or.inr (Or.inr ⟨Nat.le_refl _, Nat.le_refl _⟩))
      (WatershedResult.eq_ok_get _ (by decide!)) rfl (by decide!) rfl).2.2.2

/-! ## Which files are read -/

theorem prepare_ok (W : World) (x y z : String) (ex ey ez : List DirEntry)
    (x0 y0 z0 : Path) (xs ys zs : List Path) (ix iy iz : Image)
    (hx : W.entries x = some ex) (hy : W.entries y = some ey) (hz : W.entries z = some ez)
    (hfx : regular_files x ex = x0 :: xs)
    (hfy : regular_files y ey = y0 :: ys)
    (hfz : regular_files z ez = z0 :: zs)
    (hxy : xs.length = ys.length) (hxz : xs.length = zs.length)
    (hix : W.image x0 = some ix) (hiy : W.image y0 = some iy) (hiz : W.image z0 = some iz)
    (hfy' : iy.fits ix) (hfz' : iz.fits ix) :
    prepare W x y z =
      ([.stdout ("Performing affinity graph watershed on volumes " ++ x ++ ", " ++ y ++ ", " ++ z ++ "\n"),
        .list x, .list y, .list z, .list x, .list y, .list z, .info x0,
        .stdout ("reading affinity graph of size " ++ String.mk (natText ix.width) ++ "x"
          ++ String.mk (natText ix.height) ++ "x" ++ String.mk (natText 1) ++ "\n"),
        .info x0, .importImage x0, .info y0, .importImage y0, .info z0, .importImage z0],
       .ok (load ix iy iz)) := by
  have hyz : ys.length = zs.length := by omega
  have hfx'' : ix.width = 0 ∨ ix.height = 0 ∨ (ix.width ≤ ix.width ∧ ix.height ≤ ix.height) :=
    Or.inr (Or.inr ⟨le_refl _, le_refl _⟩)
  have e1 := read_slice_channel_eq W (AffinityGraph.new ix.width ix.height 1 3) 0 0 x0 ix hix hfx''
  have e2 := read_slice_channel_eq W ((AffinityGraph.new ix.width ix.height 1 3).assign 0 0 ix)
    0 1 y0 iy hiy hfy'
  have e3 := read_slice_channel_eq W
    (((AffinityGraph.new ix.width ix.height 1 3).assign 0 0 ix).assign 0 1 iy) 0 2 z0 iz hiz hfz'
  simp [prepare, Prog.bind_def, Prog.pure_def, Prog.emit, Prog.bind_ok, Prog.stop,
    Prog.bind_error, num_files_eq _ _ _ hx,
    num_files_eq _ _ _ hy, num_files_eq _ _ _ hz, files_eq _ _ _ hx, files_eq _ _ _ hy,
    files_eq _ _ _ hz, hfx, hfy, hfz, hxy, hxz, hyz, resize_one_cons, sort_singleton, Prog.index,
    hix, range_one_eq, read_slice, e1, e2, e3, load]

theorem imports_append (a b : List Event) : imports (a ++ b) = imports a ++ imports b := by
  simp [imports, List.filterMap_append]

theorem imports_write_all (W : World) (seg : Segmentation) (p : Params) :
    imports (write_all W seg p).1 = [] := by
  by_cases h : seg.size_z = 0
  · rw [write_all_undefined W seg p h]; rfl
  · rw [write_all_eq W seg p (by omega)]; rfl

theorem segment_imports (E : Engine) (aff : AffinityGraph) (t_l t_h : F32) :
    imports (segment E aff t_l t_h).1 = [] := by
  cases hws : E.simple_watershed aff t_l t_h with
  | error e => rw [segment_error E aff t_l t_h e hws]; rfl
  | ok r =>
    cases hrg : E.get_region_graph aff r.segmentation (toInt32 r.num_segments) with
    | error e => rw [segment_graph_error E aff t_l t_h r e hws hrg]; rfl
    | ok u => rw [segment_ok E aff t_l t_h r hws hrg]; rfl

/-- C9: each file list is cut to its first element before it is sorted, so the
sort changes nothing: for every listing with at least one regular file the
sorted list is the one-element list of the first regular file in enumeration
order; the files a run imports are these first files of the three axes; and
there is a listing whose first file is not its least under the path order. -/
theorem first_listed_file_is_read (W : World) (E : Engine) (argv : List String)
    (t_l t_h t_s msf : F32) (ms : Int) (ex ey ez : List DirEntry) (ix iy iz : Image)
    (hargc : 8 ≤ argv.length)
    (h4 : W.lexical_cast_float (arg argv 4) = some t_l)
    (h5 : W.lexical_cast_float (arg argv 5) = some t_h)
    (h6 : W.lexical_cast_float (arg argv 6) = some t_s)
    (h7 : W.lexical_cast_float (arg argv 7) = some msf)
    (hms : msf.toInt32? = some ms)
    (hx : W.entries (arg argv 1) = some ex)
    (hy : W.entries (arg argv 2) = some ey)
    (hz : W.entries (arg argv 3) = some ez)
    (hxy : (ex.filter (fun i => i.regular)).length = (ey.filter (fun i => i.regular)).length)
    (hxz : (ex.filter (fun i => i.regular)).length = (ez.filter (fun i => i.regular)).length)
    (hpos : 1 ≤ (ex.filter (fun i => i.regular)).length)
    (hix : W.image ((regular_files (arg argv 1) ex).headD default) = some ix)
    (hiy : W.image ((regular_files (arg argv 2) ey).headD default) = some iy)
    (hiz : W.image ((regular_files (arg argv 3) ez).headD default) = some iz)
    (hfy : iy.fits ix) (hfz : iz.fits ix) :
    (∀ (p : String) (es : List DirEntry), 1 ≤ (es.filter (fun i => i.regular)).length →
      sort (resize 1 (regular_files p es)) = resize 1 (regular_files p es) ∧
      sort (resize 1 (regular_files p es)) = [(regular_files p es).headD default]) ∧
    imports (main W E argv).trace =
      [(regular_files (arg argv 1) ex).headD default,
       (regular_files (arg argv 2) ey).headD default,
       (regular_files (arg argv 3) ez).headD default] ∧
    (∃ (p : String) (es : List DirEntry), ∃ f ∈ regular_files p es,
      Path.lt f ((regular_files p es).headD default)) := by
  refine ⟨?_, ?_, ?_⟩
  · intro p es hes
    obtain ⟨xs, hfx, -⟩ := regular_files_cons_of_pos p es hes
    rw [hfx, resize_one_cons, sort_singleton]
    exact ⟨rfl, rfl⟩
  · obtain ⟨xs, hfx, hlx⟩ := regular_files_cons_of_pos (arg argv 1) ex hpos
    obtain ⟨ys, hfy', hly⟩ := regular_files_cons_of_pos (arg argv 2) ey (by omega)
    obtain ⟨zs, hfz', hlz⟩ := regular_files_cons_of_pos (arg argv 3) ez (by omega)
    have hprep := prepare_ok W (arg argv 1) (arg argv 2) (arg argv 3) ex ey ez _ _ _ xs ys zs
      ix iy iz hx hy hz hfx hfy' hfz' (by omega) (by omega) hix hiy hiz hfy hfz
    have hp := parse_args_ok W argv t_l t_h t_s msf ms h4 h5 h6 h7 hms
    have hsi := segment_imports E (load ix iy iz) t_l t_h
    rcases hsg : segment E (load ix iy iz) t_l t_h with ⟨ts, rs⟩
    rw [hsg] at hsi
    cases rs with
    | error s2 =>
      rw [main_of_segment_error W E argv _ _ ts (load ix iy iz) s2 hargc hp hprep hsg]
      simp only [imports_append, hsi, List.append_nil]
      rfl
    | ok seg =>
      rw [main_of_stages W E argv _ _ ts (load ix iy iz) seg hargc hp hprep hsg]
      simp only [imports_append, hsi, imports_write_all, List.append_nil]
      rfl
  · refine ⟨"aff_x", [⟨"b.tif", true⟩, ⟨"a.tif", true⟩], ⟨"aff_x", "a.tif"⟩, ?_, ?_⟩
    · decide
    · decide!

/-- The concrete world lists `b.tif` before `a.tif`; `b.tif` is read. -/
theorem first_listed_file_is_read_witness :
    imports (main demo_world demo_engine
        ["watershed", "aff_x", "aff_y", "aff_z", "0.3", "0.8", "0.5", "3"]).trace =
      [⟨"aff_x", "b.tif"⟩, ⟨"aff_y", "b.tif"⟩, ⟨"aff_z", "b.tif"⟩] :=
  (first_listed_file_is_read demo_world demo_engine
      ["watershed", "aff_x", "aff_y", "aff_z", "0.3", "0.8", "0.5", "3"]
      ⟨false, 125, 1677722⟩ ⟨false, 126, 5033165⟩ ⟨false, 126, 0⟩ ⟨false, 128, 4194304⟩ 3
      [⟨"sub", false⟩, ⟨"b.tif", true⟩, ⟨"a.tif", true⟩]
      [⟨"sub", false⟩, ⟨"b.tif", true⟩, ⟨"a.tif", true⟩]
      [⟨"sub", false⟩, ⟨"b.tif", true⟩, ⟨"a.tif", true⟩]
      demo_image_x demo_image_y demo_image_z
      (by decide) (by decide!) (by decide!) (by decide!) (by decide!) (by decide!)
      (by decide!) (by decide!) (by decide!) (by decide) (by decide) (by decide)
      rfl rfl rfl
      (Or.inr (Or.inr ⟨Nat.le_refl _, Nat.le_refl _⟩))
      (Or.inr (Or.inr ⟨Nat.le_refl _, Nat.le_refl _⟩))).2.1

/-! ## Inverted thresholds -/

theorem simple_watershed_invalid (aff : AffinityGraph) (t_l t_h : F32)
    (h : F32.gt t_l t_h = true) :
    simple_watershed aff t_l t_h = .error .InvalidThreshold := by
  simp [simple_watershed, h]

/-- C6 (amended): with the watershed of the spec as engine, for every
invocation whose parsed thresholds satisfy `t_l > t_h` no segmentation slice is
written, and whenever the run gets as far as calling `simple_watershed` it
ends with the uncaught failure `InvalidThreshold`. -/
theorem inverted_thresholds_abort (W : World)
    (get_region_graph : AffinityGraph → Segmentation → Int → Except Failure Unit)
    (argv : List String) (t_l t_h : F32)
    (hargc : 8 ≤ argv.length)
    (h4 : W.lexical_cast_float (arg argv 4) = some t_l)
    (h5 : W.lexical_cast_float (arg argv 5) = some t_h)
    (hgt : F32.gt t_l t_h = true) :
    exports (main W (spec_engine get_region_graph) argv).trace = [] ∧
    (watershed_calls (main W (spec_engine get_region_graph) argv).trace ≠ [] →
      (main W (spec_engine get_region_graph) argv).outcome = .uncaught .InvalidThreshold) := by
  rcases main_cases W (spec_engine get_region_graph) argv hargc with ⟨s, hm⟩ | ⟨p, tp, hp, hin, hc⟩
  · rw [hm]
    exact ⟨rfl, fun h => absurd rfl h⟩
  · obtain ⟨h4', h5', -, -⟩ := parse_args_inv W argv p hp
    have el : p.t_l = t_l := by rw [h4] at h4'; exact (Option.some.inj h4').symm
    have eh : p.t_h = t_h := by rw [h5] at h5'; exact (Option.some.inj h5').symm
    have hex := exports_of_input tp hin
    have hwc := watershed_calls_of_input tp hin
    have hinv : ∀ aff, (spec_engine get_region_graph).simple_watershed aff p.t_l p.t_h
        = .error .InvalidThreshold := by
      intro aff
      rw [el, eh]
      exact simple_watershed_invalid aff t_l t_h hgt
    rcases hc with ⟨s, -, hm⟩ | ⟨aff, e, -, hws, hm⟩ | ⟨aff, r, e, -, hws, hm⟩ |
      ⟨aff, r, -, hws, -, hm⟩
    · rw [hm]
      exact ⟨hex, fun h => absurd hwc h⟩
    · rw [hinv aff] at hws
      cases hws
      rw [hm]
      refine ⟨?_, fun _ => rfl⟩
      simp only [exports_append, hex, List.nil_append]
      rfl
    · rw [hinv aff] at hws; cases hws
    · rw [hinv aff] at hws; cases hws

/-- The concrete world with `t_l = 0.8` and `t_h = 0.3`. -/
theorem inverted_thresholds_abort_witness :
    (main demo_world (spec_engine (fun _ _ _ => .ok ()))
      ["watershed", "aff_x", "aff_y", "aff_z", "0.8", "0.3", "0.5", "3"]).outcome
        = .uncaught .InvalidThreshold :=
  (inverted_thresholds_abort demo_world (fun _ _ _ => .ok ())
    ["watershed", "aff_x", "aff_y", "aff_z", "0.8", "0.3", "0.5", "3"]
    ⟨false, 126, 5033165⟩ ⟨false, 125, 1677722⟩ (by decide) (by decide!) (by decide!)
    (by decide!)).2 (by
      intro h
      have := congrArg List.length h
      revert this
      decide!)

/-- An invocation with `t_l = 0.8 > t_h = 0.3` whose third directory is empty
ends with exit code 1 from the directory check, not with `InvalidThreshold`. -/
theorem inverted_thresholds_exit_one :
    demo_world.lexical_cast_float "0.8" = some ⟨false, 126, 5033165⟩ ∧
    demo_world.lexical_cast_float "0.3" = some ⟨false, 125, 1677722⟩ ∧
    F32.gt ⟨false, 126, 5033165⟩ ⟨false, 125, 1677722⟩ = true ∧
    (main demo_world demo_engine
      ["watershed", "aff_x", "aff_y", "empty", "0.8", "0.3", "0.5", "3"]).outcome = .exit 1 ∧
    (main demo_world demo_engine
      ["watershed", "aff_x", "aff_y", "empty", "0.8", "0.3", "0.5", "3"]).outcome
        ≠ .uncaught .InvalidThreshold := by
  decide!

/-! ## The minimum size argument -/

theorem F32.toInt32?_of_holdsInt (a : F32) (n : Int) (h : a.holdsInt n)
    (hlo : -2147483648 ≤ n) (hhi : n < 2147483648) : a.toInt32? = some n := by
  obtain ⟨hf, hk⟩ := h
  have hfin : a.expo.val ≠ 255 := by
    simpa [F32.isFinite] using hf
  have hnan : a.isNaN = false := by simp [F32.isNaN, hfin]
  have hinf : a.isInf = false := by simp [F32.isInf, hfin]
  have hpos : (0 : Int) < 2 ^ 149 := by positivity
  have hq : ∀ k : Nat, (a.mag : Int) = (k : Int) * 2 ^ 149 → a.mag / 2 ^ 149 = k := by
    intro k hk'
    have : a.mag = k * 2 ^ 149 := by exact_mod_cast hk'
    rw [this, Nat.mul_div_cancel _ (by positivity)]
  unfold F32.toInt32?
  simp only [hnan, hinf, Bool.or_self, Bool.false_eq_true, if_false]
  unfold F32.key at hk
  cases hs : a.sign with
  | true =>
    simp only [hs, if_true] at hk
    have hn : n ≤ 0 := by
      by_contra hcon
      have : (0 : Int) < n * 2 ^ 149 := Int.mul_pos (by omega) hpos
      have h0 : (0 : Int) ≤ (a.mag : Int) := Int.natCast_nonneg _
      omega
    obtain ⟨k, hk2⟩ : ∃ k : Nat, (k : Int) = -n := ⟨(-n).toNat, Int.toNat_of_nonneg (by omega)⟩
    have hm : (a.mag : Int) = (k : Int) * 2 ^ 149 := by
      rw [hk2]; linarith
    rw [hq k hm]
    simp only [if_true]
    have : -(k : Int) = n := by omega
    rw [this, if_pos ⟨hlo, hhi⟩]
  | false =>
    simp only [hs, Bool.false_eq_true, if_false] at hk
    have hn : 0 ≤ n := by
      by_contra hcon
      have : n * 2 ^ 149 < 0 := Int.mul_neg_of_neg_of_pos (by omega) hpos
      have h0 : (0 : Int) ≤ (a.mag : Int) := Int.natCast_nonneg _
      omega
    obtain ⟨k, hk2⟩ : ∃ k : Nat, (k : Int) = n := ⟨n.toNat, Int.toNat_of_nonneg hn⟩
    have hm : (a.mag : Int) = (k : Int) * 2 ^ 149 := by
      rw [hk2]; exact hk
    rw [hq k hm]
    simp only [Bool.false_eq_true, if_false]
    rw [hk2, if_pos ⟨hlo, hhi⟩]

/-- C8 (amended): for every command line the driver accepts whose seventh
argument is read as a `float` that holds an integer `n` of `int` range, the
run exits with 0 and the `ms` in the name of the written file is `n` itself,
whatever the sign of `n`: there is no check of `ms >= 0`. -/
theorem min_size_as_given (W : World) (E : Engine) (argv : List String)
    (t_l t_h t_s msf : F32) (n : Int) (ex ey ez : List DirEntry)
    (ix iy iz : Image) (r : WatershedResult)
    (hargc : 8 ≤ argv.length)
    (h4 : W.lexical_cast_float (arg argv 4) = some t_l)
    (h5 : W.lexical_cast_float (arg argv 5) = some t_h)
    (h6 : W.lexical_cast_float (arg argv 6) = some t_s)
    (h7 : W.lexical_cast_float (arg argv 7) = some msf)
    (hint : msf.holdsInt n) (hlo : -2147483648 ≤ n) (hhi : n < 2147483648)
    (hx : W.entries (arg argv 1) = some ex)
    (hy : W.entries (arg argv 2) = some ey)
    (hz : W.entries (arg argv 3) = some ez)
    (hxy : (ex.filter (fun i => i.regular)).length = (ey.filter (fun i => i.regular)).length)
    (hxz : (ex.filter (fun i => i.regular)).length = (ez.filter (fun i => i.regular)).length)
    (hpos : 1 ≤ (ex.filter (fun i => i.regular)).length)
    (hix : W.image ((regular_files (arg argv 1) ex).headD default) = some ix)
    (hiy : W.image ((regular_files (arg argv 2) ey).headD default) = some iy)
    (hiz : W.image ((regular_files (arg argv 3) ez).headD default) = some iz)
    (hfy : iy.fits ix) (hfz : iz.fits ix)
    (hws : E.simple_watershed (load ix iy iz) t_l t_h = .ok r)
    (hrg : E.get_region_graph (load ix iy iz) r.segmentation (toInt32 r.num_segments) = .ok ())
    (hsz : 0 < r.segmentation.size_z)
    (hexp : W.exportImage (output_filename 0 t_l t_h t_s n) = true) :
    (main W E argv).outcome = .exit 0 ∧
    (exports (main W E argv).trace).map Prod.fst = [output_filename 0 t_l t_h t_s n] := by
  have hms := F32.toInt32?_of_holdsInt msf n hint hlo hhi
  obtain ⟨xs, hfx, hlx⟩ := regular_files_cons_of_pos (arg argv 1) ex hpos
  obtain ⟨ys, hfy', hly⟩ := regular_files_cons_of_pos (arg argv 2) ey (by omega)
  obtain ⟨zs, hfz', hlz⟩ := regular_files_cons_of_pos (arg argv 3) ez (by omega)
  rw [main_success W E argv t_l t_h t_s msf n ex ey ez _ _ _ xs ys zs ix iy iz r hargc
    h4 h5 h6 h7 hms hx hy hz hfx hfy' hfz' (by omega) (by omega) hix hiy hiz hfy hfz hws hrg hsz hexp]
  exact ⟨rfl, rfl⟩

/-- The concrete world with the seventh argument `-5`. -/
theorem min_size_as_given_witness :
    (main demo_world demo_engine
        ["watershed", "aff_x", "aff_y", "aff_z", "0.3", "0.8", "0.5", "-5"]).outcome = .exit 0 ∧
    (exports (main demo_world demo_engine
        ["watershed", "aff_x", "aff_y", "aff_z", "0.3", "0.8", "0.5", "-5"]).trace).map Prod.fst
      = [output_filename 0 ⟨false, 125, 1677722⟩ ⟨false, 126, 5033165⟩ ⟨false, 126, 0⟩ (-5)] :=
  min_size_as_given demo_world demo_engine
      ["watershed", "aff_x", "aff_y", "aff_z", "0.3", "0.8", "0.5", "-5"]
      ⟨false, 125, 1677722⟩ ⟨false, 126, 5033165⟩ ⟨false, 126, 0⟩ ⟨true, 129, 2097152⟩ (-5)
      [⟨"sub", false⟩, ⟨"b.tif", true⟩, ⟨"a.tif", true⟩]
      [⟨"sub", false⟩, ⟨"b.tif", true⟩, ⟨"a.tif", true⟩]
      [⟨"sub", false⟩, ⟨"b.tif", true⟩, ⟨"a.tif", true⟩]
      demo_image_x demo_image_y demo_image_z
      (WatershedResult.get (simple_watershed (load demo_image_x demo_image_y demo_image_z)
        ⟨false, 125, 1677722⟩ ⟨false, 126, 5033165⟩))
      (by decide) (by decide!) (by decide!) (by decide!) (by decide!)
      ⟨by decide!, by decide!⟩ (by decide) (by decide)
      (by decide!) (by decide!) (by decide!) (by decide) (by decide) (by decide)
      rfl rfl rfl
      (Or.inr (Or.inr ⟨Nat.le_refl _, Nat.le_refl _⟩)) (Or.inr (Or.inr ⟨Nat.le_refl _, Nat.le_refl _⟩))
      (WatershedResult.eq_ok_get _ (by decide!)) rfl (by decide!) rfl

/-- The seventh argument `-5` is accepted and used as `ms = -5`; the seventh
argument `2.7` is accepted and used as `ms = 2`. -/
theorem min_size_not_checked :
    (main demo_world demo_engine
        ["watershed", "aff_x", "aff_y", "aff_z", "0.3", "0.8", "0.5", "-5"]).outcome = .exit 0 ∧
    (exports (main demo_world demo_engine
        ["watershed", "aff_x", "aff_y", "aff_z", "0.3", "0.8", "0.5", "-5"]).trace).map Prod.fst
      = ["watershed_00000_0.3_0.8_0.5_-5.tif"] ∧
    (main demo_world demo_engine
        ["watershed", "aff_x", "aff_y", "aff_z", "0.3", "0.8", "0.5", "2.7"]).outcome = .exit 0 ∧
    (exports (main demo_world demo_engine
        ["watershed", "aff_x", "aff_y", "aff_z", "0.3", "0.8", "0.5", "2.7"]).trace).map Prod.fst
      = ["watershed_00000_0.3_0.8_0.5_2.tif"] := by
  decide!

/-! ## The watershed of the spec -/

theorem union_same (c : Voxel → Voxel) (a b u v : Voxel) :
    union c a b u = union c a b v ↔
      c u = c v ∨ ((c u = c a ∨ c u = c b) ∧ (c v = c a ∨ c v = c b)) := by
  unfold union
  by_cases hu : c u = c b <;> by_cases hv : c v = c b
  · rw [if_pos hu, if_pos hv]
    exact ⟨fun _ => Or.inl (hu.trans hv.symm), fun _ => rfl⟩
  · rw [if_pos hu, if_neg hv]
    constructor
    · intro h; exact Or.inr ⟨Or.inr hu, Or.inl h.symm⟩
    · rintro (h | ⟨-, h | h⟩)
      · exact absurd (h.symm.trans hu) hv
      · exact h.symm
      · exact absurd h hv
  · rw [if_neg hu, if_pos hv]
    constructor
    · intro h; exact Or.inr ⟨Or.inl h, Or.inr hv⟩
    · rintro (h | ⟨h | h, -⟩)
      · exact absurd (h.trans hv) hu
      · exact h
      · exact absurd h hu
  · rw [if_neg hu, if_neg hv]
    constructor
    · intro h; exact Or.inl h
    · rintro (h | ⟨h1 | h1, h2 | h2⟩)
      · exact h
      · rw [h1, h2]
      · exact absurd h2 hv
      · exact absurd h1 hu
      · exact absurd h1 hu

theorem eqvGen_congr {α : Type} {r p : α → α → Prop}
    (h1 : ∀ a b, r a b → Relation.EqvGen p a b) (h2 : ∀ a b, p a b → Relation.EqvGen r a b)
    (u v : α) : Relation.EqvGen r u v ↔ Relation.EqvGen p u v := by
  constructor
  · intro h
    induction h with
    | rel a b h => exact h1 a b h
    | refl => exact Relation.EqvGen.refl _
    | symm a b _ ih => exact Relation.EqvGen.symm _ _ ih
    | trans a b c _ _ hab hbc => exact Relation.EqvGen.trans _ _ _ hab hbc
  · intro h
    induction h with
    | rel a b h => exact h2 a b h
    | refl => exact Relation.EqvGen.refl _
    | symm a b _ ih => exact Relation.EqvGen.symm _ _ ih
    | trans a b c _ _ hab hbc => exact Relation.EqvGen.trans _ _ _ hab hbc

theorem eqvGen_same (c : Voxel → Voxel) (u v : Voxel) :
    Relation.EqvGen (fun a b => c a = c b) u v ↔ c u = c v := by
  constructor
  · intro h
    induction h with
    | rel a b h => exact h
    | refl => rfl
    | symm a b _ ih => exact ih.symm
    | trans a b d _ _ hab hbc => exact hab.trans hbc
  · intro h
    exact Relation.EqvGen.rel _ _ h

/-- After a run of unions two voxels share a representative exactly when they
are linked by the relation "shared a representative before, or are the two
ends of one of the edges". -/
theorem unionAll_same (es : List VoxelEdge) (c : Voxel → Voxel) (u v : Voxel) :
    unionAll c es u = unionAll c es v ↔
      Relation.EqvGen (fun a b => c a = c b ∨ ∃ e ∈ es, e.src = a ∧ e.dst = b) u v := by
  induction es generalizing c with
  | nil =>
    simp only [unionAll, List.foldl_nil, List.not_mem_nil, false_and, exists_false, or_false]
    exact (eqvGen_same c u v).symm
  | cons e es ih =>
    have hstep : unionAll c (e :: es) = unionAll (union c e.src e.dst) es := rfl
    rw [hstep, ih]
    apply eqvGen_congr
    · rintro a b (h | ⟨e', he', hs, hd⟩)
      · rcases (union_same c e.src e.dst a b).1 h with h | ⟨ha, hb⟩
        · exact Relation.EqvGen.rel _ _ (Or.inl h)
        · have hsd : Relation.EqvGen
              (fun a b => c a = c b ∨ ∃ e' ∈ e :: es, e'.src = a ∧ e'.dst = b) e.src e.dst :=
            Relation.EqvGen.rel _ _ (Or.inr ⟨e, List.mem_cons_self _ _, rfl, rfl⟩)
          have has : ∀ x, (c x = c e.src ∨ c x = c e.dst) → Relation.EqvGen
              (fun a b => c a = c b ∨ ∃ e' ∈ e :: es, e'.src = a ∧ e'.dst = b) x e.src := by
            rintro x (hx | hx)
            · exact Relation.EqvGen.rel _ _ (Or.inl hx)
            · exact Relation.EqvGen.trans _ _ _ (Relation.EqvGen.rel _ _ (Or.inl hx))
                (Relation.EqvGen.symm _ _ hsd)
          exact Relation.EqvGen.trans _ _ _ (has a ha) (Relation.EqvGen.symm _ _ (has b hb))
      · exact Relation.EqvGen.rel _ _ (Or.inr ⟨e', List.mem_cons_of_mem _ he', hs, hd⟩)
    · rintro a b (h | ⟨e', he', hs, hd⟩)
      · exact Relation.EqvGen.rel _ _ (Or.inl ((union_same c e.src e.dst a b).2 (Or.inl h)))
      · rcases List.mem_cons.1 he' with rfl | he''
        · refine Relation.EqvGen.rel _ _ (Or.inl ?_)
          rw [← hs, ← hd]
          exact (union_same c e'.src e'.dst e'.src e'.dst).2
            (Or.inr ⟨Or.inl rfl, Or.inr rfl⟩)
        · exact Relation.EqvGen.rel _ _ (Or.inr ⟨e', he'', hs, hd⟩)

theorem firstSeen_fold_mem {α : Type} [DecidableEq α] (xs acc : List α) (x : α) :
    x ∈ xs.foldl (fun acc x => if x ∈ acc then acc else acc ++ [x]) acc ↔ x ∈ acc ∨ x ∈ xs := by
  induction xs generalizing acc with
  | nil => simp
  | cons y ys ih =>
    simp only [List.foldl_cons, List.mem_cons]
    rw [ih]
    by_cases hy : y ∈ acc
    · simp only [hy, if_true]
      constructor
      · rintro (h | h)
        · exact Or.inl h
        · exact Or.inr (Or.inr h)
      · rintro (h | h | h)
        · exact Or.inl h
        · exact Or.inl (h ▸ hy)
        · exact Or.inr h
    · simp only [hy, if_false, List.mem_append, List.mem_singleton]
      tauto

theorem firstSeen_mem {α : Type} [DecidableEq α] (xs : List α) (x : α) :
    x ∈ firstSeen xs ↔ x ∈ xs := by
  unfold firstSeen
  rw [firstSeen_fold_mem]
  simp

theorem mem_voxels (aff : AffinityGraph) (v : Voxel) :
    v ∈ aff.voxels ↔ v.1 < aff.size_x ∧ v.2.1 < aff.size_y ∧ v.2.2 < aff.size_z := by
  obtain ⟨x, y, z⟩ := v
  simp only [AffinityGraph.voxels, List.mem_flatMap, List.mem_range, List.mem_map, Prod.mk.injEq]
  constructor
  · rintro ⟨z', hz, y', hy, x', hx, rfl, rfl, rfl⟩
    exact ⟨hx, hy, hz⟩
  · rintro ⟨hx, hy, hz⟩
    exact ⟨z, hz, y, hy, x, hx, rfl, rfl, rfl⟩

theorem mem_edges (aff : AffinityGraph) (e : VoxelEdge) :
    e ∈ aff.edges ↔ e.src ∈ aff.voxels ∧ e.axis < 3 ∧ aff.hasEdge e.src e.axis = true := by
  simp only [AffinityGraph.edges, List.mem_flatMap, List.mem_map, List.mem_filter, List.mem_range]
  constructor
  · rintro ⟨v, hv, axis, ⟨hax, hhas⟩, rfl⟩
    exact ⟨hv, hax, hhas⟩
  · rintro ⟨hv, hax, hhas⟩
    exact ⟨e.src, hv, e.axis, ⟨hax, hhas⟩, rfl⟩

theorem edge_dst_mem (aff : AffinityGraph) (e : VoxelEdge) (h : e ∈ aff.edges) :
    e.dst ∈ aff.voxels := by
  obtain ⟨hs, hax, hhas⟩ := (mem_edges aff e).1 h
  rw [mem_voxels] at hs ⊢
  simp only [VoxelEdge.src] at hs
  unfold AffinityGraph.hasEdge at hhas
  unfold VoxelEdge.dst
  by_cases h0 : e.axis = 0
  · simp only [h0, if_true, decide_eq_true_eq, VoxelEdge.src] at hhas ⊢
    exact ⟨hhas, hs.2.1, hs.2.2⟩
  · by_cases h1 : e.axis = 1
    · simp only [h1, show ¬ (1 : Nat) = 0 by decide, if_true, if_false, decide_eq_true_eq,
        VoxelEdge.src] at hhas ⊢
      exact ⟨hs.1, hhas, hs.2.2⟩
    · simp only [h0, h1, if_false, decide_eq_true_eq, VoxelEdge.src] at hhas ⊢
      exact ⟨hs.1, hs.2.1, hhas⟩

theorem F32.isNaN_of_isFinite {a : F32} (h : a.isFinite = true) : a.isNaN = false := by
  have hfin : a.expo.val ≠ 255 := by simpa [F32.isFinite] using h
  simp [F32.isNaN, hfin]

theorem F32.le_trans' {a b c : F32} (h1 : F32.le a b = true) (h2 : F32.le b c = true) :
    F32.le a c = true := by
  simp only [F32.le, Bool.and_eq_true, Bool.not_eq_true', decide_eq_true_eq] at *
  exact ⟨⟨h1.1.1, h2.1.2⟩, Int.le_trans h1.2 h2.2⟩

theorem F32.lt_of_not_ge {v t : F32} (hv : v.isNaN = false) (ht : t.isNaN = false)
    (h : F32.ge v t = false) : F32.lt v t = true := by
  cases hlt : F32.lt v t with
  | true => rfl
  | false =>
    have := (F32.ge_iff_not_lt hv ht).2 hlt
    rw [h] at this
    cases this

theorem eqvGen_lift {α : Type} {r p : α → α → Prop}
    (h1 : ∀ a b, r a b → Relation.EqvGen p a b) {u v : α} (h : Relation.EqvGen r u v) :
    Relation.EqvGen p u v := by
  induction h with
  | rel a b h => exact h1 a b h
  | refl => exact Relation.EqvGen.refl _
  | symm a b _ ih => exact Relation.EqvGen.symm _ _ ih
  | trans a b c _ _ hab hbc => exact Relation.EqvGen.trans _ _ _ hab hbc

/-- The representatives after both passes: two voxels share one exactly when
a chain of edges of weight at least `t_low` joins them. -/
theorem rep_same_iff_joined (aff : AffinityGraph) (t_low t_high : F32)
    (hh : t_high.isNaN = false) (hle : F32.le t_low t_high = true)
    (hw : ∀ e ∈ aff.edges, (aff.weight e).isNaN = false) (u v : Voxel) :
    unionAll (unionAll id (aff.edges.filter (fun e => F32.ge (aff.weight e) t_high)))
        ((aff.edges.filter (fun e =>
          F32.ge (aff.weight e) t_low && F32.lt (aff.weight e) t_high)).insertionSort
          (fun a b => F32.ge (aff.weight a) (aff.weight b) = true)) u
      = unionAll (unionAll id (aff.edges.filter (fun e => F32.ge (aff.weight e) t_high)))
        ((aff.edges.filter (fun e =>
          F32.ge (aff.weight e) t_low && F32.lt (aff.weight e) t_high)).insertionSort
          (fun a b => F32.ge (aff.weight a) (aff.weight b) = true)) v
      ↔ Joined aff t_low u v := by
  rw [unionAll_same]
  unfold Joined
  apply eqvGen_congr
  · rintro a b (h | ⟨e, he, hs, hd⟩)
    · rw [unionAll_same] at h
      refine eqvGen_lift ?_ h
      rintro a' b' (h' | ⟨e, he, hs, hd⟩)
      · have : a' = b' := h'
        rw [this]; exact Relation.EqvGen.refl _
      · rw [List.mem_filter] at he
        refine Relation.EqvGen.rel _ _ ⟨e, he.1, ?_, hs, hd⟩
        exact F32.le_trans' hle he.2
    · rw [List.mem_insertionSort, List.mem_filter, Bool.and_eq_true] at he
      exact Relation.EqvGen.rel _ _ ⟨e, he.1, he.2.1, hs, hd⟩
  · rintro a b ⟨e, he, hge, hs, hd⟩
    cases hhi : F32.ge (aff.weight e) t_high with
    | true =>
      refine Relation.EqvGen.rel _ _ (Or.inl ?_)
      rw [unionAll_same]
      exact Relation.EqvGen.rel _ _ (Or.inr ⟨e, List.mem_filter.2 ⟨he, hhi⟩, hs, hd⟩)
    | false =>
      have hlt := F32.lt_of_not_ge (hw e he) hh hhi
      refine Relation.EqvGen.rel _ _ (Or.inr ⟨e, ?_, hs, hd⟩)
      rw [List.mem_insertionSort, List.mem_filter, Bool.and_eq_true]
      exact ⟨he, hge, hlt⟩

theorem position_inj {α : Type} [DecidableEq α] (l : List α) (x y : α)
    (hx : x ∈ l) (hy : y ∈ l) : position x l = position y l ↔ x = y := by
  induction l with
  | nil => cases hx
  | cons a as ih =>
    unfold position
    by_cases h1 : a = x <;> by_cases h2 : a = y
    · rw [if_pos h1, if_pos h2]
      exact ⟨fun _ => h1.symm.trans h2, fun _ => rfl⟩
    · rw [if_pos h1, if_neg h2]
      constructor
      · intro h; omega
      · intro h; exact absurd (h1.trans h) h2
    · rw [if_neg h1, if_pos h2]
      constructor
      · intro h; omega
      · intro h; exact absurd (h2.trans h.symm) h1
    · rw [if_neg h1, if_neg h2, Nat.add_right_cancel_iff]
      refine ih ?_ ?_
      · rcases List.mem_cons.1 hx with h | h
        · exact absurd h.symm h1
        · exact h
      · rcases List.mem_cons.1 hy with h | h
        · exact absurd h.symm h2
        · exact h

theorem label_eq_iff (aff : AffinityGraph) (c : Voxel → Voxel) (u v : Voxel)
    (hu : u ∈ aff.voxels) (hv : v ∈ aff.voxels) :
    position (c u) (firstSeen (aff.voxels.map c)) + 1
      = position (c v) (firstSeen (aff.voxels.map c)) + 1 ↔ c u = c v := by
  have mu : c u ∈ firstSeen (aff.voxels.map c) :=
    (firstSeen_mem _ _).2 (List.mem_map.2 ⟨u, hu, rfl⟩)
  have mv : c v ∈ firstSeen (aff.voxels.map c) :=
    (firstSeen_mem _ _).2 (List.mem_map.2 ⟨v, hv, rfl⟩)
  rw [Nat.add_right_cancel_iff]
  exact position_inj _ _ _ mu mv

theorem simple_watershed_inv (aff : AffinityGraph) (t_low t_high : F32)
    (r : WatershedResult) (h : simple_watershed aff t_low t_high = .ok r) :
    t_low.isFinite = true ∧ t_high.isFinite = true ∧ F32.gt t_low t_high = false ∧
    (∀ e ∈ aff.edges, (aff.weight e).isFinite = true) ∧
    ∀ x y z, r.segmentation.label x y z =
      if x < aff.size_x ∧ y < aff.size_y ∧ z < aff.size_z then
        position
          (unionAll (unionAll id (aff.edges.filter (fun e => F32.ge (aff.weight e) t_high)))
            ((aff.edges.filter (fun e =>
              F32.ge (aff.weight e) t_low && F32.lt (aff.weight e) t_high)).insertionSort
              (fun a b => F32.ge (aff.weight a) (aff.weight b) = true)) (x, y, z))
          (firstSeen (aff.voxels.map
            (unionAll (unionAll id (aff.edges.filter (fun e => F32.ge (aff.weight e) t_high)))
              ((aff.edges.filter (fun e =>
                F32.ge (aff.weight e) t_low && F32.lt (aff.weight e) t_high)).insertionSort
                (fun a b => F32.ge (aff.weight a) (aff.weight b) = true))))) + 1
      else 0 := by
  unfold simple_watershed at h
  split at h
  · cases h
  · rename_i h1
    split at h
    · cases h
    · split at h
      · cases h
      · split at h
        · cases h
        · rename_i h4
          simp only [Bool.or_eq_true, Bool.not_eq_true', not_or, Bool.not_eq_false] at h1
          simp only [List.any_eq_true, Bool.not_eq_true', not_exists, not_and,
            Bool.not_eq_false] at h4
          injection h with h
          subst h
          refine ⟨h1.1.2, h1.2, by simpa using h1.1.1, h4, fun x y z => rfl⟩

theorem simple_watershed_total (aff : AffinityGraph) (t_low t_high : F32)
    (hl : t_low.isFinite = true) (hh : t_high.isFinite = true)
    (hle : F32.le t_low t_high = true) (hc : aff.size_c = 3)
    (hne : 0 < aff.size_x * aff.size_y * aff.size_z)
    (hw : ∀ e ∈ aff.edges, (aff.weight e).isFinite = true) :
    ∃ r, simple_watershed aff t_low t_high = .ok r := by
  have hgt : F32.gt t_low t_high = false := by
    have := F32.lt_false_of_ge (v := t_high) (t := t_low) hle
    exact this
  have hne' : ¬ aff.size_x * aff.size_y * aff.size_z = 0 := by omega
  have hany : (aff.edges.any (fun e => !(aff.weight e).isFinite)) = false := by
    rw [List.any_eq_false]
    intro e he
    simp [hw e he]
  unfold simple_watershed
  simp only [hgt, hl, hh, hc, hne', hany, Bool.not_true, Bool.or_self, Bool.false_eq_true,
    if_false, ne_eq, not_true_eq_false]
  exact ⟨_, rfl⟩

/-- The example of section 8 of the spec, with `t_low = 0.3` and `t_high = 0.8`:
two regions, `{A, B}` and `{C, D}`, of two voxels each. -/
theorem spec_example_regions :
    (WatershedResult.get (simple_watershed (load demo_image_x demo_image_y demo_image_z)
      ⟨false, 125, 1677722⟩ ⟨false, 126, 5033165⟩)).num_segments = 2 ∧
    (WatershedResult.get (simple_watershed (load demo_image_x demo_image_y demo_image_z)
      ⟨false, 125, 1677722⟩ ⟨false, 126, 5033165⟩)).counts = [2, 2] ∧
    [(0, 0), (1, 0), (0, 1), (1, 1)].map (fun v =>
      (WatershedResult.get (simple_watershed (load demo_image_x demo_image_y demo_image_z)
        ⟨false, 125, 1677722⟩ ⟨false, 126, 5033165⟩)).segmentation.label v.1 v.2 0)
      = [1, 1, 2, 2] := by
  decide!

/-- C7: threshold monotonicity of the watershed of the spec.  On a well-formed
input (finite thresholds with `t_low <= t_high`, three axes, a non-empty
volume, finite edge weights) `simple_watershed` returns a segmentation; and in
every segmentation it returns, every voxel-edge of weight `>= t_high` has both
ends in the same region, and two voxels are in the same region exactly when a
chain of voxel-edges of weight `>= t_low` joins them: an edge of weight below
`t_low` never causes a merge by itself. -/
theorem threshold_monotonicity (aff : AffinityGraph) (t_low t_high : F32) :
    (t_low.isFinite = true → t_high.isFinite = true → F32.le t_low t_high = true →
      aff.size_c = 3 → 0 < aff.size_x * aff.size_y * aff.size_z →
      (∀ e ∈ aff.edges, (aff.weight e).isFinite = true) →
      ∃ r, simple_watershed aff t_low t_high = .ok r) ∧
    (∀ r, simple_watershed aff t_low t_high = .ok r →
      F32.le t_low t_high = true ∧
      (∀ e ∈ aff.edges, F32.ge (aff.weight e) t_high = true →
        r.segmentation.label e.src.1 e.src.2.1 e.src.2.2
          = r.segmentation.label e.dst.1 e.dst.2.1 e.dst.2.2) ∧
      (∀ u ∈ aff.voxels, ∀ v ∈ aff.voxels,
        (r.segmentation.label u.1 u.2.1 u.2.2 = r.segmentation.label v.1 v.2.1 v.2.2
          ↔ Joined aff t_low u v))) := by
  refine ⟨simple_watershed_total aff t_low t_high, ?_⟩
  intro r hr
  obtain ⟨hl, hh, hgt, hw, hlab⟩ := simple_watershed_inv aff t_low t_high r hr
  have hln := F32.isNaN_of_isFinite hl
  have hhn := F32.isNaN_of_isFinite hh
  have hle : F32.le t_low t_high = true := (F32.ge_iff_not_lt hhn hln).2 hgt
  have hwn : ∀ e ∈ aff.edges, (aff.weight e).isNaN = false :=
    fun e he => F32.isNaN_of_isFinite (hw e he)
  have key : ∀ u ∈ aff.voxels, ∀ v ∈ aff.voxels,
      (r.segmentation.label u.1 u.2.1 u.2.2 = r.segmentation.label v.1 v.2.1 v.2.2
        ↔ Joined aff t_low u v) := by
    intro u hu v hv
    rw [hlab, hlab, if_pos ((mem_voxels aff u).1 hu), if_pos ((mem_voxels aff v).1 hv)]
    rw [label_eq_iff aff _ u v hu hv]
    exact rep_same_iff_joined aff t_low t_high hhn hle hwn u v
  refine ⟨hle, ?_, key⟩
  intro e he hge
  have hs := ((mem_edges aff e).1 he).1
  have hd := edge_dst_mem aff e he
  refine (key e.src hs e.dst hd).2 ?_
  exact Relation.EqvGen.rel _ _ ⟨e, he, F32.le_trans' hle hge, rfl, rfl⟩

/-- The example of section 8 of the spec is a well-formed input. -/
theorem threshold_monotonicity_witness :
    ∃ r, simple_watershed (load demo_image_x demo_image_y demo_image_z)
      ⟨false, 125, 1677722⟩ ⟨false, 126, 5033165⟩ = .ok r :=
  (threshold_monotonicity (load demo_image_x demo_image_y demo_image_z)
    ⟨false, 125, 1677722⟩ ⟨false, 126, 5033165⟩).1 (by decide) (by decide) (by decide!)
    rfl (by decide) (by decide!)

/-- The conversion of `write_slice` is not injective: the labels `2^24` and
`2^24 + 1` are one `float`. -/
theorem F32.ofNat_collision : F32.ofNat 16777217 = F32.ofNat 16777216 ∧
    (F32.ofNat 16777217).key = 16777216 * 2 ^ 149 := by decide!

/-- The amendment of C3 is needed: with an engine that returns the labels
`2^24 + x`, the run ends with code 0, voxel `(1, 0, 0)` of the returned
segmentation has the label 16777217, and the pixel written for it holds
16777216, the same `float` as the pixel of voxel `(0, 0, 0)`, whose label is
16777216: the written label data is not the returned segmentation. -/
theorem written_label_rounded :
    (main demo_world wide_label_engine
      ["watershed", "aff_x", "aff_y", "aff_z", "0.3", "0.8", "0.5", "3"]).outcome = .exit 0 ∧
    (watershed_calls (main demo_world wide_label_engine
      ["watershed", "aff_x", "aff_y", "aff_z", "0.3", "0.8", "0.5", "3"]).trace).map
        (fun c => ((WatershedResult.get (wide_label_engine.simple_watershed c.1 c.2.1 c.2.2)
          ).segmentation.label 0 0 0,
          (WatershedResult.get (wide_label_engine.simple_watershed c.1 c.2.1 c.2.2)
          ).segmentation.label 1 0 0))
      = [(16777216, 16777217)] ∧
    (exports (main demo_world wide_label_engine
      ["watershed", "aff_x", "aff_y", "aff_z", "0.3", "0.8", "0.5", "3"]).trace).map
        (fun p => ((p.2.data 0 0).key, (p.2.data 1 0).key))
      = [(16777216 * 2 ^ 149, 16777216 * 2 ^ 149)] := by decide!

/-- In the concrete world the written slice has the extents of the
segmentation and holds its labels, pixel by pixel. -/
theorem demo_written_pixels :
    (exports (main demo_world demo_engine
      ["watershed", "aff_x", "aff_y", "aff_z", "0.3", "0.8", "0.5", "3"]).trace).map
        (fun p => (p.2.width, p.2.height,
          [(p.2.data 0 0).key, (p.2.data 1 0).key, (p.2.data 0 1).key, (p.2.data 1 1).key]))
      = [(2, 2, [1 * 2 ^ 149, 1 * 2 ^ 149, 2 * 2 ^ 149, 2 * 2 ^ 149])] ∧
    (watershed_calls (main demo_world demo_engine
      ["watershed", "aff_x", "aff_y", "aff_z", "0.3", "0.8", "0.5", "3"]).trace).map
        (fun c => ((WatershedResult.get (demo_engine.simple_watershed c.1 c.2.1 c.2.2)
            ).segmentation.size_x,
          (WatershedResult.get (demo_engine.simple_watershed c.1 c.2.1 c.2.2)
            ).segmentation.size_y,
          [0, 1].flatMap (fun y => [0, 1].map (fun x =>
            (WatershedResult.get (demo_engine.simple_watershed c.1 c.2.1 c.2.2)
              ).segmentation.label x y 0))))
      = [(2, 2, [1, 1, 2, 2])] := by decide!

end AffWatershed
